import Mathlib

/-!
# Tile-sheet layout resolution and tile extraction (`tcod::Tilesheet`)

A shallow embedding of `src/tileset/tilesheet.h` and `src/tileset/tile.h`.

* C++ `int` values are modelled as `Int`; `/` and `%` on `int` truncate towards
  zero and are modelled by `Int.tdiv` and `Int.tmod`.
* `Int` is unbounded: signed overflow, undefined in C++, is not modelled.  Every product
  formed by `get_tile` on a block inside the canvas is bounded by the canvas size.
  Where the definedness of a division is the question, `int_div` and `int_mod` give the
  built-in operators on 32-bit `int` as partial functions.
* Exceptions are modelled by `Except Error`.
* The two overloads of `get_tile` are `Tilesheet.get_tile` (`int x, int y`) and
  `Tilesheet.get_tile_n` (`int n`).
* `Canvas` is an external collaborator (`color/canvas.h`); it is modelled from its
  contract: a `width × height` grid indexable at `(x, y)` with `0 ≤ x < width`
  and `0 ≤ y < height`.  An access outside that range is outside the contract and
  is reported as `Error.canvasRange`.
-/

namespace tcod

/-- The ways an operation of the model can fail. -/
inductive Error where
  /-- `std::logic_error("Tilesheet layout is non-valid.")` thrown by `fill_layout`. -/
  | layout
  /-- `std::out_of_range("Tile not in Tilesheet layout.")` thrown by `get_tile`. -/
  | index
  /-- A `Canvas::at(x, y)` access with `(x, y)` outside `[0, width) × [0, height)`. -/
  | canvasRange
  deriving DecidableEq, Repr

/-- Modelled from the spec: the `Canvas` class of `color/canvas.h`, a grid of pixel
values of size `width × height`, fixed at construction, with element access by
integer coordinates `(x, y)`. -/
structure Canvas (α : Type) where
  width : Int
  height : Int
  pixels : Int → Int → α

/-- Modelled from the spec: the constructor `Canvas(width, height)`; every pixel
starts out as the default pixel value. -/
def Canvas.create {α : Type} [Inhabited α] (width height : Int) : Canvas α :=
  { width := width, height := height, pixels := fun _ _ => default }

/-- Modelled from the spec: the index range of a canvas, `0 ≤ x < width` and
`0 ≤ y < height`. -/
def Canvas.in_range {α : Type} (c : Canvas α) (x y : Int) : Bool :=
  decide (0 ≤ x) && decide (x < c.width) && decide (0 ≤ y) && decide (y < c.height)

/-- Modelled from the spec: the read access `canvas.at(x, y)`. -/
def Canvas.at {α : Type} (c : Canvas α) (x y : Int) : Except Error α :=
  if c.in_range x y then .ok (c.pixels x y) else .error .canvasRange

/-- Modelled from the spec: the write access `canvas.at(x, y) = v`. -/
def Canvas.set {α : Type} (c : Canvas α) (x y : Int) (v : α) : Except Error (Canvas α) :=
  if c.in_range x y then
    .ok { c with pixels := fun i j => if i = x ∧ j = y then v else c.pixels i j }
  else .error .canvasRange

/-- The class `Tile` of `tile.h`: a value owning one canvas. -/
structure Tile (α : Type) where
  canvas_ : Canvas α

/-- The accessor `Tile::width()`. -/
def Tile.width {α : Type} (t : Tile α) : Int := t.canvas_.width

/-- The accessor `Tile::height()`. -/
def Tile.height {α : Type} (t : Tile α) : Int := t.canvas_.height

/-- The struct `TilesheetLayout`: the layout of tiles on a tile-sheet. -/
structure TilesheetLayout where
  tile_width : Int
  tile_height : Int
  columns : Int
  rows : Int
  deriving DecidableEq, Repr

/-- The class `Tilesheet`: the sheet canvas and its layout. -/
structure Tilesheet (α : Type) where
  canvas_ : Canvas α
  layout_ : TilesheetLayout

/-- The four assignments of `Tilesheet::fill_layout`, in source order, on a canvas of
width `w` and height `h`. -/
def fill_layout_fields (w h : Int) (l0 : TilesheetLayout) : TilesheetLayout :=
  let l1 := if l0.columns = 0 ∧ l0.tile_width > 0 then
      { l0 with columns := Int.tdiv w l0.tile_width } else l0
  let l2 := if l1.rows = 0 ∧ l1.tile_height > 0 then
      { l1 with rows := Int.tdiv h l1.tile_height } else l1
  let l3 := if l2.tile_width = 0 ∧ l2.columns > 0 then
      { l2 with tile_width := Int.tdiv w l2.columns } else l2
  let l4 := if l3.tile_height = 0 ∧ l3.rows > 0 then
      { l3 with tile_height := Int.tdiv h l3.rows } else l3
  l4

/-- The method `Tilesheet::fill_layout`: fill the values which are 0 in `layout_`, then
throw when `columns` or `rows` is still 0. -/
def Tilesheet.fill_layout {α : Type} (s : Tilesheet α) : Except Error (Tilesheet α) :=
  let l := fill_layout_fields s.canvas_.width s.canvas_.height s.layout_
  if l.columns = 0 ∨ l.rows = 0 then .error .layout
  else .ok { s with layout_ := l }

/-- The constructor `Tilesheet(const Canvas&, const TilesheetLayout&)`. -/
def Tilesheet.new {α : Type} (canvas : Canvas α) (layout : TilesheetLayout) :
    Except Error (Tilesheet α) :=
  Tilesheet.fill_layout { canvas_ := canvas, layout_ := layout }

/-- The body of the inner loop of `Tilesheet::new_tile`:
`tile_canvas.at(pixel_x, pixel_y) = canvas_.at(x + pixel_x, y + pixel_y)`. -/
def new_tile_pixel {α : Type} (src : Canvas α) (x y : Int) (pixel_y : Nat)
    (tile_canvas : Canvas α) (pixel_x : Nat) : Except Error (Canvas α) := do
  let v ← src.at (x + pixel_x) (y + pixel_y)
  tile_canvas.set pixel_x pixel_y v

/-- The inner loop of `Tilesheet::new_tile`, `for (pixel_x = 0; pixel_x < width; ++pixel_x)`:
the body of the outer loop. -/
def new_tile_row {α : Type} (src : Canvas α) (x y width : Int)
    (tile_canvas : Canvas α) (pixel_y : Nat) : Except Error (Canvas α) :=
  (List.range width.toNat).foldlM (new_tile_pixel src x y pixel_y) tile_canvas

/-- The method `Tilesheet::new_tile`: a new tile from the given region of the sheet. -/
def Tilesheet.new_tile {α : Type} [Inhabited α] (s : Tilesheet α) (x y width height : Int) :
    Except Error (Tile α) := do
  let tile_canvas ← (List.range height.toNat).foldlM (new_tile_row s.canvas_ x y width)
    (Canvas.create width height)
  return { canvas_ := tile_canvas }

/-- The method `Tilesheet::get_tile(int x, int y)`: the tile at `x` and `y`. -/
def Tilesheet.get_tile {α : Type} [Inhabited α] (s : Tilesheet α) (x y : Int) :
    Except Error (Tile α) :=
  if ¬ (0 ≤ x ∧ x < s.layout_.columns ∧ 0 ≤ y ∧ y < s.layout_.rows) then
    .error .index
  else
    s.new_tile (x * s.layout_.tile_width) (y * s.layout_.tile_height)
      s.layout_.tile_width s.layout_.tile_height

/-- The method `Tilesheet::get_tile(int n)`: the tile at `n`. -/
def Tilesheet.get_tile_n {α : Type} [Inhabited α] (s : Tilesheet α) (n : Int) :
    Except Error (Tile α) :=
  s.get_tile (Int.tmod n s.layout_.columns) (Int.tdiv n s.layout_.columns)

/-- A sample 64 × 32 sheet whose pixel at `(x, y)` is `1000 * y + x`. -/
def sheet64x32 : Canvas Int :=
  { width := 64, height := 32, pixels := fun x y => 1000 * y + x }

/-- A sample 3 × 3 sheet whose pixel at `(x, y)` is `10 * y + x`. -/
def sheet3x3 : Canvas Int :=
  { width := 3, height := 3, pixels := fun x y => 10 * y + x }

/-- The method `Tilesheet::fill_layout` with its divisions recorded: the same four guarded
assignments in source order, returning the resolved fields together with the divisor of
every division that was executed. -/
def fill_layout_traced (w h : Int) (l0 : TilesheetLayout) : TilesheetLayout × List Int :=
  let r1 := if l0.columns = 0 ∧ l0.tile_width > 0 then
      ({ l0 with columns := Int.tdiv w l0.tile_width }, [l0.tile_width]) else (l0, [])
  let r2 := if r1.1.rows = 0 ∧ r1.1.tile_height > 0 then
      ({ r1.1 with rows := Int.tdiv h r1.1.tile_height }, r1.2 ++ [r1.1.tile_height]) else r1
  let r3 := if r2.1.tile_width = 0 ∧ r2.1.columns > 0 then
      ({ r2.1 with tile_width := Int.tdiv w r2.1.columns }, r2.2 ++ [r2.1.columns]) else r2
  let r4 := if r3.1.tile_height = 0 ∧ r3.1.rows > 0 then
      ({ r3.1 with tile_height := Int.tdiv h r3.1.rows }, r3.2 ++ [r3.1.rows]) else r3
  r4

/-- The least value of a 32-bit `int`. -/
def INT_MIN : Int := -2147483648

/-- The greatest value of a 32-bit `int`. -/
def INT_MAX : Int := 2147483647

/-- The built-in `a / b` on `int` operands: undefined (`none`) when `b` is zero or the
quotient is not representable in `int`, otherwise the quotient truncated towards zero. -/
def int_div (a b : Int) : Option Int :=
  if b = 0 ∨ Int.tdiv a b < INT_MIN ∨ INT_MAX < Int.tdiv a b then none
  else some (Int.tdiv a b)

/-- The built-in `a % b` on `int` operands: undefined (`none`) when `b` is zero or the
quotient `a / b` is not representable in `int`, otherwise the remainder of the truncating
division. -/
def int_mod (a b : Int) : Option Int :=
  if b = 0 ∨ Int.tdiv a b < INT_MIN ∨ INT_MAX < Int.tdiv a b then none
  else some (Int.tmod a b)

/-- The method `Tilesheet::get_tile(int n)` with the definedness of its two built-in
operations made explicit: `none` when `n % layout_.columns` or `n / layout_.columns` is
undefined, otherwise the result of `get_tile(n % layout_.columns, n / layout_.columns)`. -/
def Tilesheet.get_tile_n_checked {α : Type} [Inhabited α] (s : Tilesheet α) (n : Int) :
    Option (Except Error (Tile α)) :=
  (int_mod n s.layout_.columns).bind fun x =>
    (int_div n s.layout_.columns).bind fun y =>
      some (s.get_tile x y)

/-! ## Canvas access -/

theorem Canvas.in_range_iff {α : Type} (c : Canvas α) (x y : Int) :
    c.in_range x y = true ↔ 0 ≤ x ∧ x < c.width ∧ 0 ≤ y ∧ y < c.height := by
  simp [Canvas.in_range, and_assoc]

theorem Canvas.at_eq_ok {α : Type} (c : Canvas α) (x y : Int)
    (h : 0 ≤ x ∧ x < c.width ∧ 0 ≤ y ∧ y < c.height) :
    c.at x y = .ok (c.pixels x y) := by
  have h1 := (c.in_range_iff x y).2 h
  simp [Canvas.at, h1]

theorem Canvas.at_ne_index {α : Type} (c : Canvas α) (x y : Int) :
    c.at x y ≠ .error .index := by
  unfold Canvas.at
  split <;> simp

theorem Canvas.set_ne_index {α : Type} (c : Canvas α) (x y : Int) (v : α) :
    c.set x y v ≠ .error .index := by
  unfold Canvas.set
  split <;> simp

/-! ## The copy loops of `new_tile` -/

/-- The tile canvas once the columns `0 .. n-1` of row `pixel_y` have been copied. -/
def row_copied {α : Type} (src : Canvas α) (x y : Int) (pixel_y n : Nat) (t : Canvas α) :
    Canvas α :=
  { t with pixels := fun i j =>
      if 0 ≤ i ∧ i < n ∧ j = pixel_y then src.pixels (x + i) (y + j) else t.pixels i j }

/-- The tile canvas once the rows `0 .. m-1` have been copied, `n` columns each. -/
def rows_copied {α : Type} (src : Canvas α) (x y : Int) (n m : Nat) (t : Canvas α) :
    Canvas α :=
  { t with pixels := fun i j =>
      if 0 ≤ i ∧ i < n ∧ 0 ≤ j ∧ j < m then src.pixels (x + i) (y + j) else t.pixels i j }

theorem foldlM_range_succ {β : Type} (f : β → Nat → Except Error β) (n : Nat) (b : β) :
    (List.range (n + 1)).foldlM f b = (List.range n).foldlM f b >>= fun b1 => f b1 n := by
  rw [List.range_succ, List.foldlM_append]
  simp

theorem foldlM_ne_index {β : Type} (f : β → Nat → Except Error β)
    (hf : ∀ b n, f b n ≠ .error .index) (l : List Nat) (b : β) :
    l.foldlM f b ≠ .error .index := by
  induction l generalizing b with
  | nil => simp [pure, Except.pure]
  | cons a l ih =>
    rw [List.foldlM_cons]
    cases h : f b a with
    | error e =>
      have := hf b a
      rw [h] at this
      simpa [bind, Except.bind] using this
    | ok b1 => simpa [bind, Except.bind] using ih b1

theorem new_tile_pixel_ne_index {α : Type} (src : Canvas α) (x y : Int) (pixel_y : Nat)
    (t : Canvas α) (pixel_x : Nat) :
    new_tile_pixel src x y pixel_y t pixel_x ≠ .error .index := by
  unfold new_tile_pixel
  cases h : src.at (x + pixel_x) (y + pixel_y) with
  | error e =>
    have := src.at_ne_index (x + pixel_x) (y + pixel_y)
    rw [h] at this
    simpa [bind, Except.bind] using this
  | ok v => simpa [bind, Except.bind] using t.set_ne_index pixel_x pixel_y v

theorem new_tile_row_ne_index {α : Type} (src : Canvas α) (x y width : Int)
    (t : Canvas α) (pixel_y : Nat) :
    new_tile_row src x y width t pixel_y ≠ .error .index :=
  foldlM_ne_index _ (new_tile_pixel_ne_index src x y pixel_y) _ t

theorem new_tile_ne_index {α : Type} [Inhabited α] (s : Tilesheet α) (x y width height : Int) :
    s.new_tile x y width height ≠ .error .index := by
  unfold Tilesheet.new_tile
  cases h : (List.range height.toNat).foldlM (new_tile_row s.canvas_ x y width)
      (Canvas.create width height) with
  | error e =>
    have := foldlM_ne_index _ (new_tile_row_ne_index s.canvas_ x y width)
      (List.range height.toNat) (Canvas.create width height)
    rw [h] at this
    simpa [bind, Except.bind] using this
  | ok t => simp [bind, Except.bind, pure, Except.pure]

theorem new_tile_row_loop {α : Type} (src : Canvas α) (x y : Int) (pixel_y : Nat)
    (t : Canvas α) (n : Nat)
    (hsrc : ∀ i : Nat, i < n →
      0 ≤ x + i ∧ x + i < src.width ∧ 0 ≤ y + pixel_y ∧ y + pixel_y < src.height)
    (hdst : ∀ i : Nat, i < n → (i : Int) < t.width ∧ (pixel_y : Int) < t.height) :
    (List.range n).foldlM (new_tile_pixel src x y pixel_y) t
      = .ok (row_copied src x y pixel_y n t) := by
  induction n with
  | zero =>
    simp only [List.range_zero, List.foldlM_nil, pure, Except.pure, row_copied]
    congr 1
    cases t
    simp only [Canvas.mk.injEq, true_and]
    funext i j
    have : ¬ (0 ≤ i ∧ i < ((0 : Nat) : Int) ∧ j = (pixel_y : Int)) := by
      intro h
      have := h.2.1
      omega
    simp only [this, if_false]
  | succ n ih =>
    have ih1 := ih (fun i hi => hsrc i (Nat.lt_succ_of_lt hi))
      (fun i hi => hdst i (Nat.lt_succ_of_lt hi))
    rw [foldlM_range_succ, ih1]
    have hs := hsrc n (Nat.lt_succ_self n)
    have hat := src.at_eq_ok (x + n) (y + pixel_y) hs
    have hin : (row_copied src x y pixel_y n t).in_range n pixel_y = true := by
      rw [Canvas.in_range_iff]
      have hd := hdst n (Nat.lt_succ_self n)
      simp only [row_copied]
      omega
    simp only [bind, Except.bind, new_tile_pixel, hat, Canvas.set, hin, if_true]
    congr 1
    simp only [row_copied, Canvas.mk.injEq, true_and]
    funext i j
    by_cases h1 : i = (n : Int) ∧ j = (pixel_y : Int)
    · have h2 : 0 ≤ i ∧ i < ((n + 1 : Nat) : Int) ∧ j = (pixel_y : Int) := by omega
      rw [if_pos h1, if_pos h2, h1.1, h1.2]
    · by_cases h3 : 0 ≤ i ∧ i < (n : Int) ∧ j = (pixel_y : Int)
      · have h2 : 0 ≤ i ∧ i < ((n + 1 : Nat) : Int) ∧ j = (pixel_y : Int) := by omega
        rw [if_neg h1, if_pos h3, if_pos h2]
      · have h2 : ¬ (0 ≤ i ∧ i < ((n + 1 : Nat) : Int) ∧ j = (pixel_y : Int)) := by omega
        rw [if_neg h1, if_neg h3, if_neg h2]

theorem new_tile_rows_loop {α : Type} (src : Canvas α) (x y width : Int)
    (t : Canvas α) (m : Nat)
    (hsrc : ∀ i j : Nat, i < width.toNat → j < m →
      0 ≤ x + i ∧ x + i < src.width ∧ 0 ≤ y + j ∧ y + j < src.height)
    (hdst : ∀ i j : Nat, i < width.toNat → j < m → (i : Int) < t.width ∧ (j : Int) < t.height) :
    (List.range m).foldlM (new_tile_row src x y width) t
      = .ok (rows_copied src x y width.toNat m t) := by
  induction m with
  | zero =>
    simp only [List.range_zero, List.foldlM_nil, pure, Except.pure, rows_copied]
    congr 1
    cases t
    simp only [Canvas.mk.injEq, true_and]
    funext i j
    have h0 : ¬ (0 ≤ i ∧ i < (width.toNat : Int) ∧ 0 ≤ j ∧ j < ((0 : Nat) : Int)) := by omega
    rw [if_neg h0]
  | succ m ih =>
    have ih1 := ih (fun i j hi hj => hsrc i j hi (Nat.lt_succ_of_lt hj))
      (fun i j hi hj => hdst i j hi (Nat.lt_succ_of_lt hj))
    rw [foldlM_range_succ, ih1]
    have hrow := new_tile_row_loop src x y m (rows_copied src x y width.toNat m t) width.toNat
      (fun i hi => hsrc i m hi (Nat.lt_succ_self m))
      (fun i hi => by simpa only [rows_copied] using hdst i m hi (Nat.lt_succ_self m))
    simp only [bind, Except.bind, new_tile_row, hrow]
    congr 1
    simp only [row_copied, rows_copied, Canvas.mk.injEq, true_and]
    funext i j
    by_cases h1 : 0 ≤ i ∧ i < (width.toNat : Int) ∧ j = (m : Int)
    · have h2 : 0 ≤ i ∧ i < (width.toNat : Int) ∧ 0 ≤ j ∧ j < ((m + 1 : Nat) : Int) := by omega
      rw [if_pos h1, if_pos h2]
    · by_cases h3 : 0 ≤ i ∧ i < (width.toNat : Int) ∧ 0 ≤ j ∧ j < (m : Int)
      · have h2 : 0 ≤ i ∧ i < (width.toNat : Int) ∧ 0 ≤ j ∧ j < ((m + 1 : Nat) : Int) := by
          omega
        rw [if_neg h1, if_pos h3, if_pos h2]
      · have h2 : ¬ (0 ≤ i ∧ i < (width.toNat : Int) ∧ 0 ≤ j ∧ j < ((m + 1 : Nat) : Int)) := by
          omega
        rw [if_neg h1, if_neg h3, if_neg h2]

/-- The canvas of the tile cut out at pixel origin `(x, y)` with size `width × height`. -/
def block_canvas {α : Type} [Inhabited α] (src : Canvas α) (x y width height : Int) : Canvas α :=
  { width := width, height := height, pixels := fun i j =>
      if 0 ≤ i ∧ i < width ∧ 0 ≤ j ∧ j < height then src.pixels (x + i) (y + j) else default }

theorem new_tile_eq_block {α : Type} [Inhabited α] (s : Tilesheet α) (x y width height : Int)
    (hin : 0 < width → 0 < height →
      0 ≤ x ∧ x + width ≤ s.canvas_.width ∧ 0 ≤ y ∧ y + height ≤ s.canvas_.height) :
    s.new_tile x y width height = .ok { canvas_ := block_canvas s.canvas_ x y width height } := by
  have hloop := new_tile_rows_loop s.canvas_ x y width (Canvas.create width height)
    height.toNat
    (fun i j hi hj => by
      have := hin (by omega) (by omega)
      omega)
    (fun i j hi hj => by
      simp only [Canvas.create]
      omega)
  simp only [Tilesheet.new_tile, hloop, bind, Except.bind, pure, Except.pure]
  congr 2
  simp only [rows_copied, block_canvas, Canvas.create, Canvas.mk.injEq, true_and]
  funext i j
  by_cases h1 : 0 ≤ i ∧ i < width ∧ 0 ≤ j ∧ j < height
  · have h2 : 0 ≤ i ∧ i < (width.toNat : Int) ∧ 0 ≤ j ∧ j < (height.toNat : Int) := by omega
    rw [if_pos h1, if_pos h2]
  · have h2 : ¬ (0 ≤ i ∧ i < (width.toNat : Int) ∧ 0 ≤ j ∧ j < (height.toNat : Int)) := by
      omega
    rw [if_neg h1, if_neg h2]

/-! ## Layout resolution -/

theorem fill_layout_fields_columns (w h : Int) (l : TilesheetLayout) :
    (fill_layout_fields w h l).columns
      = if l.columns = 0 ∧ l.tile_width > 0 then Int.tdiv w l.tile_width else l.columns := by
  simp only [fill_layout_fields]
  split_ifs <;> rfl

theorem fill_layout_fields_rows (w h : Int) (l : TilesheetLayout) :
    (fill_layout_fields w h l).rows
      = if l.rows = 0 ∧ l.tile_height > 0 then Int.tdiv h l.tile_height else l.rows := by
  simp only [fill_layout_fields]
  split_ifs <;> rfl

theorem fill_layout_fields_tile_width (w h : Int) (l : TilesheetLayout) :
    (fill_layout_fields w h l).tile_width
      = if l.tile_width = 0 ∧ l.columns > 0 then Int.tdiv w l.columns else l.tile_width := by
  simp only [fill_layout_fields]
  split_ifs <;> first | rfl | omega | simp_all

theorem fill_layout_fields_tile_height (w h : Int) (l : TilesheetLayout) :
    (fill_layout_fields w h l).tile_height
      = if l.tile_height = 0 ∧ l.rows > 0 then Int.tdiv h l.rows else l.tile_height := by
  simp only [fill_layout_fields]
  split_ifs <;> first | rfl | omega | simp_all

theorem new_eq_ok_iff {α : Type} (canvas : Canvas α) (layout : TilesheetLayout)
    (s : Tilesheet α) :
    Tilesheet.new canvas layout = .ok s ↔
      (s = { canvas_ := canvas,
             layout_ := fill_layout_fields canvas.width canvas.height layout } ∧
        (fill_layout_fields canvas.width canvas.height layout).columns ≠ 0 ∧
        (fill_layout_fields canvas.width canvas.height layout).rows ≠ 0) := by
  simp only [Tilesheet.new, Tilesheet.fill_layout]
  split_ifs with h
  · constructor
    · intro h1
      cases h1
    · rintro ⟨_, h2, h3⟩
      rcases h with h | h
      · exact absurd h h2
      · exact absurd h h3
  · rw [not_or] at h
    constructor
    · intro h1
      injection h1 with h1
      exact ⟨h1.symm, h.1, h.2⟩
    · rintro ⟨h1, _, _⟩
      rw [h1]

theorem new_eq_layout_error_iff {α : Type} (canvas : Canvas α) (layout : TilesheetLayout) :
    Tilesheet.new canvas layout = .error .layout ↔
      ((fill_layout_fields canvas.width canvas.height layout).columns = 0 ∨
        (fill_layout_fields canvas.width canvas.height layout).rows = 0) := by
  simp only [Tilesheet.new, Tilesheet.fill_layout]
  split_ifs with h
  · simp [h]
  · simp [h]

/-! ## Truncating division on non-negative operands -/

theorem tdiv_nonneg_of_nonneg {a b : Int} (ha : 0 ≤ a) (hb : 0 < b) : 0 ≤ Int.tdiv a b := by
  rw [Int.tdiv_eq_ediv ha (Int.le_of_lt hb)]
  exact Int.ediv_nonneg ha (Int.le_of_lt hb)

theorem tdiv_eq_zero_iff_lt {a b : Int} (ha : 0 ≤ a) (hb : 0 < b) :
    Int.tdiv a b = 0 ↔ a < b := by
  rw [Int.tdiv_eq_ediv ha (Int.le_of_lt hb)]
  constructor
  · intro h
    have := Int.lt_ediv_add_one_mul_self a hb
    rw [h] at this
    omega
  · intro h
    exact Int.ediv_eq_zero_of_lt ha h

theorem tdiv_mul_le {a b : Int} (ha : 0 ≤ a) (hb : 0 < b) : Int.tdiv a b * b ≤ a := by
  rw [Int.tdiv_eq_ediv ha (Int.le_of_lt hb)]
  exact Int.ediv_mul_le a (Int.ne_of_gt hb)

/-! ## Tile extraction in closed form -/

theorem get_tile_eq_block {α : Type} [Inhabited α] (s : Tilesheet α) (x y : Int)
    (hx : 0 ≤ x ∧ x < s.layout_.columns) (hy : 0 ≤ y ∧ y < s.layout_.rows)
    (hbx : x * s.layout_.tile_width + s.layout_.tile_width ≤ s.canvas_.width)
    (hby : y * s.layout_.tile_height + s.layout_.tile_height ≤ s.canvas_.height) :
    s.get_tile x y = .ok (Tile.mk (block_canvas s.canvas_
      (x * s.layout_.tile_width) (y * s.layout_.tile_height)
      s.layout_.tile_width s.layout_.tile_height)) := by
  have hr : ¬ ¬ (0 ≤ x ∧ x < s.layout_.columns ∧ 0 ≤ y ∧ y < s.layout_.rows) :=
    not_not.2 ⟨hx.1, hx.2, hy.1, hy.2⟩
  rw [Tilesheet.get_tile, if_neg hr]
  apply new_tile_eq_block
  intro hw hh
  exact ⟨Int.mul_nonneg hx.1 (Int.le_of_lt hw), hbx, Int.mul_nonneg hy.1 (Int.le_of_lt hh), hby⟩

theorem get_tile_index_error_iff {α : Type} [Inhabited α] (s : Tilesheet α) (x y : Int) :
    s.get_tile x y = .error .index ↔
      ¬ (0 ≤ x ∧ x < s.layout_.columns ∧ 0 ≤ y ∧ y < s.layout_.rows) := by
  by_cases h : ¬ (0 ≤ x ∧ x < s.layout_.columns ∧ 0 ≤ y ∧ y < s.layout_.rows)
  · rw [Tilesheet.get_tile, if_pos h]
    exact ⟨fun _ => h, fun _ => rfl⟩
  · rw [Tilesheet.get_tile, if_neg h]
    constructor
    · intro h1
      exact absurd h1 (new_tile_ne_index s _ _ _ _)
    · intro h1
      exact absurd h1 h

/-! ## The linear index -/

theorem linear_index_in_grid_iff (C R n : Int) (hC : 0 < C) (hR : 0 < R) :
    (0 ≤ Int.tmod n C ∧ Int.tmod n C < C ∧ 0 ≤ Int.tdiv n C ∧ Int.tdiv n C < R) ↔
      (0 ≤ n ∧ n < C * R) := by
  have hR0 : 0 ≤ R := Int.le_of_lt hR
  by_cases hn : 0 ≤ n
  · rw [Int.tmod_eq_emod hn (Int.le_of_lt hC), Int.tdiv_eq_ediv hn (Int.le_of_lt hC)]
    have h1 : 0 ≤ n % C := Int.emod_nonneg n (Int.ne_of_gt hC)
    have h2 : n % C < C := Int.emod_lt_of_pos n hC
    have h3 : 0 ≤ n / C := Int.ediv_nonneg hn (Int.le_of_lt hC)
    have h4 : n / C < R ↔ n < R * C := Int.ediv_lt_iff_lt_mul hC
    rw [Int.mul_comm C R]
    constructor
    · intro h
      exact ⟨hn, h4.1 h.2.2.2⟩
    · intro h
      exact ⟨h1, h2, h3, h4.2 h.2⟩
  · constructor
    · intro h
      have h5 := Int.tmod_add_tdiv n C
      have h6 : 0 ≤ C * Int.tdiv n C := Int.mul_nonneg (Int.le_of_lt hC) h.2.2.1
      omega
    · intro h
      exact absurd h.1 hn

theorem linear_index_row_ge (C R n : Int) (hC : 0 < C) (hR : 0 < R) (hn : C * R ≤ n) :
    R ≤ Int.tdiv n C := by
  have h0 : 0 ≤ n := Int.le_trans (Int.mul_nonneg (Int.le_of_lt hC) (Int.le_of_lt hR)) hn
  rw [Int.tdiv_eq_ediv h0 (Int.le_of_lt hC), Int.le_ediv_iff_mul_le hC, Int.mul_comm R C]
  exact hn

/-! ## Row-major indexing, grids that fit the canvas, recorded divisors -/

theorem linear_index_row_major (C x y : Int) (hx : 0 ≤ x ∧ x < C) (hy : 0 ≤ y) :
    Int.tmod (y * C + x) C = x ∧ Int.tdiv (y * C + x) C = y := by
  have hC : 0 < C := by omega
  have hn : 0 ≤ y * C + x := by
    have := Int.mul_nonneg hy (Int.le_of_lt hC)
    omega
  rw [Int.tmod_eq_emod hn (Int.le_of_lt hC), Int.tdiv_eq_ediv hn (Int.le_of_lt hC)]
  constructor
  · rw [Int.add_comm, Int.add_mul_emod_self]
    exact Int.emod_eq_of_lt hx.1 hx.2
  · rw [Int.add_comm, Int.add_mul_ediv_right _ _ (Int.ne_of_gt hC),
      Int.ediv_eq_zero_of_lt hx.1 hx.2]
    omega

theorem block_le_of_fits (c t w x : Int) (hw : 0 ≤ w) (hf : c * t ≤ w)
    (hx : 0 ≤ x ∧ x < c) : x * t + t ≤ w := by
  by_cases h : 0 ≤ t
  · have h1 : (x + 1) * t ≤ c * t := Int.mul_le_mul_of_nonneg_right (by omega) h
    have h2 : (x + 1) * t = x * t + t := by ring
    omega
  · have h1 : x * t ≤ 0 := Int.mul_nonpos_of_nonneg_of_nonpos hx.1 (by omega)
    omega

theorem derived_width_fits {α : Type} (canvas : Canvas α) (layout : TilesheetLayout)
    (s : Tilesheet α) (hs : Tilesheet.new canvas layout = .ok s) (hW : 0 ≤ canvas.width)
    (hz : layout.tile_width = 0 ∨ layout.columns = 0) :
    s.layout_.columns * s.layout_.tile_width ≤ canvas.width := by
  obtain ⟨hs1, hc0, _⟩ := (new_eq_ok_iff canvas layout s).1 hs
  have hl : s.layout_ = fill_layout_fields canvas.width canvas.height layout := by
    rw [hs1]
  rw [← hl] at hc0
  have hcol := fill_layout_fields_columns canvas.width canvas.height layout
  have hwid := fill_layout_fields_tile_width canvas.width canvas.height layout
  rw [← hl] at hcol hwid
  by_cases hcz : layout.columns = 0
  · split_ifs at hcol with h
    · have hw2 : s.layout_.tile_width = layout.tile_width := by
        rw [hwid, if_neg (fun hn => by omega)]
      rw [hcol, hw2]
      exact tdiv_mul_le hW h.2
    · omega
  · have htz : layout.tile_width = 0 := by
      rcases hz with h | h
      · exact h
      · exact absurd h hcz
    have hc2 : s.layout_.columns = layout.columns := by
      rw [hcol, if_neg (fun hn => hcz hn.1)]
    split_ifs at hwid with h
    · rw [hc2, hwid, Int.mul_comm]
      exact tdiv_mul_le hW h.2
    · rw [hwid, htz, Int.mul_zero]
      exact hW

theorem derived_height_fits {α : Type} (canvas : Canvas α) (layout : TilesheetLayout)
    (s : Tilesheet α) (hs : Tilesheet.new canvas layout = .ok s) (hH : 0 ≤ canvas.height)
    (hz : layout.tile_height = 0 ∨ layout.rows = 0) :
    s.layout_.rows * s.layout_.tile_height ≤ canvas.height := by
  obtain ⟨hs1, _, hr0⟩ := (new_eq_ok_iff canvas layout s).1 hs
  have hl : s.layout_ = fill_layout_fields canvas.width canvas.height layout := by
    rw [hs1]
  rw [← hl] at hr0
  have hrow := fill_layout_fields_rows canvas.width canvas.height layout
  have hhei := fill_layout_fields_tile_height canvas.width canvas.height layout
  rw [← hl] at hrow hhei
  by_cases hrz : layout.rows = 0
  · split_ifs at hrow with h
    · have hh2 : s.layout_.tile_height = layout.tile_height := by
        rw [hhei, if_neg (fun hn => by omega)]
      rw [hrow, hh2]
      exact tdiv_mul_le hH h.2
    · omega
  · have htz : layout.tile_height = 0 := by
      rcases hz with h | h
      · exact h
      · exact absurd h hrz
    have hr2 : s.layout_.rows = layout.rows := by
      rw [hrow, if_neg (fun hn => hrz hn.1)]
    split_ifs at hhei with h
    · rw [hr2, hhei, Int.mul_comm]
      exact tdiv_mul_le hH h.2
    · rw [hhei, htz, Int.mul_zero]
      exact hH

theorem fill_layout_traced_fst (w h : Int) (l : TilesheetLayout) :
    (fill_layout_traced w h l).1 = fill_layout_fields w h l := by
  simp only [fill_layout_traced, fill_layout_fields]
  split_ifs <;> rfl

theorem fill_layout_traced_divisors_pos (w h : Int) (l : TilesheetLayout) :
    ∀ d ∈ (fill_layout_traced w h l).2, 0 < d := by
  intro d hd
  simp only [fill_layout_traced] at hd
  split_ifs at hd <;>
    simp only [List.mem_append, List.mem_singleton, List.not_mem_nil, List.nil_append,
      List.append_assoc, List.singleton_append, List.mem_cons, or_false, false_or] at hd <;>
    dsimp only at * <;> omega

/-! ## Representable quotients -/

theorem tdiv_le_self_of_nonneg {a b : Int} (ha : 0 ≤ a) (hb : 0 < b) : Int.tdiv a b ≤ a := by
  have h1 := tdiv_mul_le ha hb
  have h2 := tdiv_nonneg_of_nonneg ha hb
  have h3 : Int.tdiv a b * 1 ≤ Int.tdiv a b * b :=
    Int.mul_le_mul_of_nonneg_left (by omega) h2
  omega

theorem tdiv_representable (n C : Int) (hn : INT_MIN ≤ n ∧ n ≤ INT_MAX) (hC : C ≠ 0)
    (hex : ¬ (n = INT_MIN ∧ C = -1)) :
    INT_MIN ≤ Int.tdiv n C ∧ Int.tdiv n C ≤ INT_MAX := by
  simp only [INT_MIN, INT_MAX] at *
  by_cases hn0 : 0 ≤ n
  · by_cases hC0 : 0 < C
    · have h1 := tdiv_nonneg_of_nonneg hn0 hC0
      have h2 := tdiv_le_self_of_nonneg hn0 hC0
      omega
    · have hb : 0 < -C := by omega
      have h0 : Int.tdiv n C = -(Int.tdiv n (-C)) := by
        rw [← Int.tdiv_neg, Int.neg_neg]
      have h1 := tdiv_nonneg_of_nonneg hn0 hb
      have h2 := tdiv_le_self_of_nonneg hn0 hb
      omega
  · have ha : 0 ≤ -n := by omega
    by_cases hC0 : 0 < C
    · have h0 : Int.tdiv n C = -(Int.tdiv (-n) C) := by
        rw [← Int.neg_tdiv, Int.neg_neg]
      have h1 := tdiv_nonneg_of_nonneg ha hC0
      have h2 := tdiv_le_self_of_nonneg ha hC0
      omega
    · have hb : 0 < -C := by omega
      have h0 : Int.tdiv n C = Int.tdiv (-n) (-C) := by
        rw [Int.neg_tdiv_neg]
      have h1 := tdiv_nonneg_of_nonneg ha hb
      have h2 := tdiv_le_self_of_nonneg ha hb
      by_cases hmin : n = -2147483648
      · have hb2 : 2 ≤ -C := by omega
        have h3 := tdiv_mul_le ha hb
        have h4 : Int.tdiv (-n) (-C) * 2 ≤ Int.tdiv (-n) (-C) * -C :=
          Int.mul_le_mul_of_nonneg_left hb2 h1
        omega
      · omega

theorem int_div_eq_some (n C : Int) (hn : INT_MIN ≤ n ∧ n ≤ INT_MAX) (hC : C ≠ 0)
    (hex : ¬ (n = INT_MIN ∧ C = -1)) : int_div n C = some (Int.tdiv n C) := by
  have h := tdiv_representable n C hn hC hex
  rw [int_div, if_neg (by omega)]

theorem int_mod_eq_some (n C : Int) (hn : INT_MIN ≤ n ∧ n ≤ INT_MAX) (hC : C ≠ 0)
    (hex : ¬ (n = INT_MIN ∧ C = -1)) : int_mod n C = some (Int.tmod n C) := by
  have h := tdiv_representable n C hn hC hex
  rw [int_mod, if_neg (by omega)]

theorem get_tile_n_checked_eq_some {α : Type} [Inhabited α] (s : Tilesheet α) (n : Int)
    (hn : INT_MIN ≤ n ∧ n ≤ INT_MAX) (hC : s.layout_.columns ≠ 0)
    (hex : ¬ (n = INT_MIN ∧ s.layout_.columns = -1)) :
    s.get_tile_n_checked n = some (s.get_tile_n n) := by
  rw [Tilesheet.get_tile_n_checked, int_mod_eq_some n _ hn hC hex,
    int_div_eq_some n _ hn hC hex]
  rfl

theorem get_tile_n_checked_int_min {α : Type} [Inhabited α] (s : Tilesheet α)
    (hC : s.layout_.columns = -1) : s.get_tile_n_checked INT_MIN = none := by
  have h : int_mod INT_MIN (-1) = none := by decide
  rw [Tilesheet.get_tile_n_checked, hC, h]
  rfl

/-! ## The claims -/

/-- C1: on a successfully constructed Tilesheet, for `(x, y)` inside the grid whose pixel
block lies inside the sheet canvas (`x*tile_width + tile_width ≤ W` and
`y*tile_height + tile_height ≤ H`), `get_tile(x, y)` returns a Tile of width `tile_width`
and height `tile_height`, and every pixel `(px, py)` of the tile equals the sheet's pixel
at `(x*tile_width + px, y*tile_height + py)`. -/
theorem get_tile_pixel_fidelity {α : Type} [Inhabited α] (canvas : Canvas α)
    (layout : TilesheetLayout) (s : Tilesheet α)
    (hs : Tilesheet.new canvas layout = .ok s) (x y : Int)
    (hx : 0 ≤ x ∧ x < s.layout_.columns) (hy : 0 ≤ y ∧ y < s.layout_.rows)
    (hbx : x * s.layout_.tile_width + s.layout_.tile_width ≤ canvas.width)
    (hby : y * s.layout_.tile_height + s.layout_.tile_height ≤ canvas.height) :
    ∃ t : Tile α, s.get_tile x y = .ok t ∧
      t.width = s.layout_.tile_width ∧ t.height = s.layout_.tile_height ∧
      ∀ px py : Int, 0 ≤ px → px < s.layout_.tile_width →
        0 ≤ py → py < s.layout_.tile_height →
        ∃ v : α, t.canvas_.at px py = .ok v ∧
          canvas.at (x * s.layout_.tile_width + px) (y * s.layout_.tile_height + py) = .ok v := by
  have hc : s.canvas_ = canvas := by
    rw [((new_eq_ok_iff canvas layout s).1 hs).1]
  rw [← hc] at hbx hby
  refine ⟨_, get_tile_eq_block s x y hx hy hbx hby, rfl, rfl, ?_⟩
  intro px py h1 h2 h3 h4
  refine ⟨s.canvas_.pixels (x * s.layout_.tile_width + px) (y * s.layout_.tile_height + py),
    ?_, ?_⟩
  · rw [Canvas.at_eq_ok _ px py ⟨h1, h2, h3, h4⟩]
    simp only [block_canvas]
    rw [if_pos ⟨h1, h2, h3, h4⟩]
  · rw [← hc]
    apply Canvas.at_eq_ok
    have hxw : 0 ≤ x * s.layout_.tile_width := Int.mul_nonneg hx.1 (by omega)
    have hyh : 0 ≤ y * s.layout_.tile_height := Int.mul_nonneg hy.1 (by omega)
    omega

/-- Witness of C1: tile `(1, 2)` of the 3 × 3 sample sheet cut into 1 × 1 tiles. -/
theorem get_tile_pixel_fidelity_witness :
    ∃ t : Tile Int, (⟨sheet3x3, ⟨1, 1, 3, 3⟩⟩ : Tilesheet Int).get_tile 1 2 = .ok t ∧
      t.width = 1 ∧ t.height = 1 ∧
      ∀ px py : Int, 0 ≤ px → px < 1 → 0 ≤ py → py < 1 →
        ∃ v : Int, t.canvas_.at px py = .ok v ∧
          sheet3x3.at (1 * 1 + px) (2 * 1 + py) = .ok v :=
  get_tile_pixel_fidelity sheet3x3 ⟨1, 1, 0, 0⟩ ⟨sheet3x3, ⟨1, 1, 3, 3⟩⟩ rfl 1 2
    (by decide) (by decide) (by decide) (by decide)

/-- C2: for positive `W`, `H`, `tw`, `th` with `tw ≤ W` and `th ≤ H`, constructing a
Tilesheet from a `W × H` canvas with layout `{tw, th, columns = 0, rows = 0}` succeeds, and
the resolved layout has `columns = W / tw` and `rows = H / th` (truncating division), with
`tile_width = tw` and `tile_height = th` unchanged. -/
theorem fill_layout_from_tile_size {α : Type} (canvas : Canvas α) (tw th : Int)
    (hW : 0 < canvas.width) (hH : 0 < canvas.height) (htw : 0 < tw) (hth : 0 < th)
    (hwle : tw ≤ canvas.width) (hhle : th ≤ canvas.height) :
    Tilesheet.new canvas ⟨tw, th, 0, 0⟩ = .ok
      ⟨canvas, ⟨tw, th, Int.tdiv canvas.width tw, Int.tdiv canvas.height th⟩⟩ := by
  rw [new_eq_ok_iff]
  have hc : Int.tdiv canvas.width tw ≠ 0 := by
    intro h
    have := (tdiv_eq_zero_iff_lt (Int.le_of_lt hW) htw).1 h
    omega
  have hr : Int.tdiv canvas.height th ≠ 0 := by
    intro h
    have := (tdiv_eq_zero_iff_lt (Int.le_of_lt hH) hth).1 h
    omega
  have hf : fill_layout_fields canvas.width canvas.height ⟨tw, th, 0, 0⟩
      = ⟨tw, th, Int.tdiv canvas.width tw, Int.tdiv canvas.height th⟩ := by
    have h1 : ¬ tw = 0 := by omega
    have h2 : ¬ th = 0 := by omega
    simp [fill_layout_fields, htw, hth, h1, h2]
  rw [hf]
  exact ⟨rfl, hc, hr⟩

/-- Witness of C2: the 64 × 32 sheet with layout `{8, 8, 0, 0}` resolves to 8 columns and
4 rows. -/
theorem fill_layout_from_tile_size_witness :
    Tilesheet.new sheet64x32 ⟨8, 8, 0, 0⟩ = .ok
      ⟨sheet64x32, ⟨8, 8, Int.tdiv sheet64x32.width 8, Int.tdiv sheet64x32.height 8⟩⟩ ∧
    Int.tdiv sheet64x32.width 8 = 8 ∧ Int.tdiv sheet64x32.height 8 = 4 :=
  ⟨fill_layout_from_tile_size sheet64x32 8 8 (by decide) (by decide) (by decide) (by decide)
    (by decide) (by decide), by decide, by decide⟩

/-- C3: for positive `c`, `r`, constructing a Tilesheet from a `W × H` canvas with layout
`{tile_width = 0, tile_height = 0, c, r}` succeeds, and the resolved layout has
`tile_width = W / c` and `tile_height = H / r` (truncating division), with `columns = c`
and `rows = r` unchanged; on a canvas with `W, H > 0` both quotients are non-negative. -/
theorem fill_layout_from_grid_counts {α : Type} (canvas : Canvas α) (c r : Int)
    (hW : 0 < canvas.width) (hH : 0 < canvas.height) (hc : 0 < c) (hr : 0 < r) :
    Tilesheet.new canvas ⟨0, 0, c, r⟩ = .ok
      ⟨canvas, ⟨Int.tdiv canvas.width c, Int.tdiv canvas.height r, c, r⟩⟩ ∧
    0 ≤ Int.tdiv canvas.width c ∧ 0 ≤ Int.tdiv canvas.height r := by
  refine ⟨?_, tdiv_nonneg_of_nonneg (Int.le_of_lt hW) hc,
    tdiv_nonneg_of_nonneg (Int.le_of_lt hH) hr⟩
  rw [new_eq_ok_iff]
  have hf : fill_layout_fields canvas.width canvas.height ⟨0, 0, c, r⟩
      = ⟨Int.tdiv canvas.width c, Int.tdiv canvas.height r, c, r⟩ := by
    have h1 : ¬ c = 0 := by omega
    have h2 : ¬ r = 0 := by omega
    simp [fill_layout_fields, hc, hr, h1, h2]
  rw [hf]
  exact ⟨rfl, by simpa using Int.ne_of_gt hc, by simpa using Int.ne_of_gt hr⟩

/-- Witness of C3: the 64 × 32 sheet with layout `{0, 0, 8, 4}` resolves to 8 × 8 tiles. -/
theorem fill_layout_from_grid_counts_witness :
    (Tilesheet.new sheet64x32 ⟨0, 0, 8, 4⟩ = .ok
      ⟨sheet64x32, ⟨Int.tdiv sheet64x32.width 8, Int.tdiv sheet64x32.height 4, 8, 4⟩⟩ ∧
    0 ≤ Int.tdiv sheet64x32.width 8 ∧ 0 ≤ Int.tdiv sheet64x32.height 4) ∧
    Int.tdiv sheet64x32.width 8 = 8 ∧ Int.tdiv sheet64x32.height 4 = 8 :=
  ⟨fill_layout_from_grid_counts sheet64x32 8 4 (by decide) (by decide) (by decide)
    (by decide), by decide, by decide⟩

/-- C4 as stated fails: on the 3 × 3 sheet with layout `{0, 0, 5, 5}` (all fields
non-negative) construction succeeds although the resolved `tile_width = 3 / 5` and
`tile_height = 3 / 5` are 0, so not all four resolved fields are strictly positive. -/
theorem fill_layout_zero_tile_size :
    Tilesheet.new sheet3x3 ⟨0, 0, 5, 5⟩ = .ok ⟨sheet3x3, ⟨0, 0, 5, 5⟩⟩ ∧
    ¬ (0 < (⟨sheet3x3, ⟨0, 0, 5, 5⟩⟩ : Tilesheet Int).layout_.tile_width) ∧
    ¬ (0 < (⟨sheet3x3, ⟨0, 0, 5, 5⟩⟩ : Tilesheet Int).layout_.tile_height) :=
  ⟨rfl, by decide, by decide⟩

/-- C4, amended: on a `W × H` canvas with `W, H ≥ 0` and an input layout with non-negative
fields for which construction succeeds, the resolved `columns` and `rows` are strictly
positive and the resolved `tile_width` and `tile_height` are non-negative; `tile_width` is
strictly positive exactly when it was supplied or the resolved `columns ≤ W`, and
`tile_height` exactly when it was supplied or the resolved `rows ≤ H`. -/
theorem fill_layout_positivity {α : Type} (canvas : Canvas α)
    (layout : TilesheetLayout) (s : Tilesheet α)
    (hs : Tilesheet.new canvas layout = .ok s)
    (hW : 0 ≤ canvas.width) (hH : 0 ≤ canvas.height)
    (htw : 0 ≤ layout.tile_width) (hth : 0 ≤ layout.tile_height)
    (hc : 0 ≤ layout.columns) (hr : 0 ≤ layout.rows) :
    0 < s.layout_.columns ∧ 0 < s.layout_.rows ∧
    0 ≤ s.layout_.tile_width ∧ 0 ≤ s.layout_.tile_height ∧
    (0 < s.layout_.tile_width ↔ (0 < layout.tile_width ∨ s.layout_.columns ≤ canvas.width)) ∧
    (0 < s.layout_.tile_height ↔
      (0 < layout.tile_height ∨ s.layout_.rows ≤ canvas.height)) := by
  obtain ⟨hs1, hc0, hr0⟩ := (new_eq_ok_iff canvas layout s).1 hs
  have hl : s.layout_ = fill_layout_fields canvas.width canvas.height layout := by
    rw [hs1]
  rw [← hl] at hc0 hr0
  have hcol := fill_layout_fields_columns canvas.width canvas.height layout
  have hrow := fill_layout_fields_rows canvas.width canvas.height layout
  have hwid := fill_layout_fields_tile_width canvas.width canvas.height layout
  have hhei := fill_layout_fields_tile_height canvas.width canvas.height layout
  rw [← hl] at hcol hrow hwid hhei
  have hcpos : 0 < s.layout_.columns := by
    split_ifs at hcol with h
    · have := tdiv_nonneg_of_nonneg hW h.2
      omega
    · omega
  have hrpos : 0 < s.layout_.rows := by
    split_ifs at hrow with h
    · have := tdiv_nonneg_of_nonneg hH h.2
      omega
    · omega
  refine ⟨hcpos, hrpos, ?_⟩
  have hwfacts : 0 ≤ s.layout_.tile_width ∧
      (0 < s.layout_.tile_width ↔
        (0 < layout.tile_width ∨ s.layout_.columns ≤ canvas.width)) := by
    split_ifs at hwid with h
    · have hceq : s.layout_.columns = layout.columns := by
        rw [hcol, if_neg (fun hn => by omega)]
      have h1 := tdiv_nonneg_of_nonneg hW h.2
      have h2 := tdiv_eq_zero_iff_lt hW h.2
      rw [← hwid] at h1 h2
      refine ⟨h1, ?_⟩
      constructor
      · intro h3
        right
        by_contra h4
        have := h2.2 (by omega)
        omega
      · rintro (h3 | h3)
        · omega
        · by_contra h4
          have := h2.1 (by omega)
          omega
    · have h1 : 0 < layout.tile_width := by
        by_contra h2
        have h3 : layout.tile_width = 0 := by omega
        have h4 : s.layout_.columns = layout.columns := by
          rw [hcol, if_neg (fun hn => by omega)]
        exact h ⟨h3, by omega⟩
      rw [hwid]
      exact ⟨htw, fun _ => Or.inl h1, fun _ => h1⟩
  have hhfacts : 0 ≤ s.layout_.tile_height ∧
      (0 < s.layout_.tile_height ↔
        (0 < layout.tile_height ∨ s.layout_.rows ≤ canvas.height)) := by
    split_ifs at hhei with h
    · have hreq : s.layout_.rows = layout.rows := by
        rw [hrow, if_neg (fun hn => by omega)]
      have h1 := tdiv_nonneg_of_nonneg hH h.2
      have h2 := tdiv_eq_zero_iff_lt hH h.2
      rw [← hhei] at h1 h2
      refine ⟨h1, ?_⟩
      constructor
      · intro h3
        right
        by_contra h4
        have := h2.2 (by omega)
        omega
      · rintro (h3 | h3)
        · omega
        · by_contra h4
          have := h2.1 (by omega)
          omega
    · have h1 : 0 < layout.tile_height := by
        by_contra h2
        have h3 : layout.tile_height = 0 := by omega
        have h4 : s.layout_.rows = layout.rows := by
          rw [hrow, if_neg (fun hn => by omega)]
        exact h ⟨h3, by omega⟩
      rw [hhei]
      exact ⟨hth, fun _ => Or.inl h1, fun _ => h1⟩
  exact ⟨hwfacts.1, hhfacts.1, hwfacts.2, hhfacts.2⟩

/-- Witness of C4, amended: the 64 × 32 sheet with layout `{0, 0, 8, 4}`. -/
theorem fill_layout_positivity_witness :
    0 < (⟨sheet64x32, ⟨8, 8, 8, 4⟩⟩ : Tilesheet Int).layout_.columns ∧
    0 < (⟨sheet64x32, ⟨8, 8, 8, 4⟩⟩ : Tilesheet Int).layout_.rows ∧
    0 < (⟨sheet64x32, ⟨8, 8, 8, 4⟩⟩ : Tilesheet Int).layout_.tile_width :=
  have h := fill_layout_positivity sheet64x32 ⟨0, 0, 8, 4⟩ ⟨sheet64x32, ⟨8, 8, 8, 4⟩⟩ rfl
    (by decide) (by decide) (by decide) (by decide) (by decide) (by decide)
  ⟨h.1, h.2.1, h.2.2.2.2.1.2 (Or.inr (by decide))⟩

/-- C5: on a `W × H` canvas with `W, H ≥ 0` and an input layout with non-negative fields
(only the non-negativity of `tile_width` and `tile_height` is used), construction fails with LayoutError if and only if `columns = 0` and (`tile_width = 0` or
`tile_width > W`), or `rows = 0` and (`tile_height = 0` or `tile_height > H`); construction
has no other failure; the all-zero layout fails, and a layout whose derived columns or rows
rounds down to 0 fails. -/
theorem layout_error_iff {α : Type} (canvas : Canvas α) (layout : TilesheetLayout)
    (hW : 0 ≤ canvas.width) (hH : 0 ≤ canvas.height)
    (htw : 0 ≤ layout.tile_width) (hth : 0 ≤ layout.tile_height) :
    (Tilesheet.new canvas layout = .error .layout ↔
      (layout.columns = 0 ∧ (layout.tile_width = 0 ∨ layout.tile_width > canvas.width)) ∨
      (layout.rows = 0 ∧ (layout.tile_height = 0 ∨ layout.tile_height > canvas.height))) ∧
    ((∀ s, Tilesheet.new canvas layout ≠ .ok s) ↔
      Tilesheet.new canvas layout = .error .layout) ∧
    (layout = ⟨0, 0, 0, 0⟩ → Tilesheet.new canvas layout = .error .layout) ∧
    (layout.columns = 0 → 0 < layout.tile_width →
      Int.tdiv canvas.width layout.tile_width = 0 →
      Tilesheet.new canvas layout = .error .layout) ∧
    (layout.rows = 0 → 0 < layout.tile_height →
      Int.tdiv canvas.height layout.tile_height = 0 →
      Tilesheet.new canvas layout = .error .layout) := by
  have hcol : (fill_layout_fields canvas.width canvas.height layout).columns = 0 ↔
      (layout.columns = 0 ∧ (layout.tile_width = 0 ∨ layout.tile_width > canvas.width)) := by
    rw [fill_layout_fields_columns]
    split_ifs with h
    · rw [tdiv_eq_zero_iff_lt hW h.2]
      constructor
      · intro h1
        exact ⟨h.1, Or.inr h1⟩
      · rintro ⟨_, h1 | h1⟩
        · omega
        · exact h1
    · constructor
      · intro h1
        exact ⟨h1, Or.inl (by omega)⟩
      · intro h1
        exact h1.1
  have hrow : (fill_layout_fields canvas.width canvas.height layout).rows = 0 ↔
      (layout.rows = 0 ∧ (layout.tile_height = 0 ∨ layout.tile_height > canvas.height)) := by
    rw [fill_layout_fields_rows]
    split_ifs with h
    · rw [tdiv_eq_zero_iff_lt hH h.2]
      constructor
      · intro h1
        exact ⟨h.1, Or.inr h1⟩
      · rintro ⟨_, h1 | h1⟩
        · omega
        · exact h1
    · constructor
      · intro h1
        exact ⟨h1, Or.inl (by omega)⟩
      · intro h1
        exact h1.1
  have hiff : Tilesheet.new canvas layout = .error .layout ↔
      (layout.columns = 0 ∧ (layout.tile_width = 0 ∨ layout.tile_width > canvas.width)) ∨
      (layout.rows = 0 ∧ (layout.tile_height = 0 ∨ layout.tile_height > canvas.height)) := by
    rw [new_eq_layout_error_iff, hcol, hrow]
  refine ⟨hiff, ?_, ?_, ?_, ?_⟩
  · constructor
    · intro h
      cases hn : Tilesheet.new canvas layout with
      | ok s => exact absurd hn (h s)
      | error e =>
        simp only [Tilesheet.new, Tilesheet.fill_layout] at hn
        split_ifs at hn
        cases hn
        rfl
    · intro h s hs
      rw [h] at hs
      cases hs
  · intro h
    rw [hiff, h]
    exact Or.inl ⟨rfl, Or.inl rfl⟩
  · intro h1 h2 h3
    rw [hiff]
    exact Or.inl ⟨h1, Or.inr ((tdiv_eq_zero_iff_lt hW h2).1 h3)⟩
  · intro h1 h2 h3
    rw [hiff]
    exact Or.inr ⟨h1, Or.inr ((tdiv_eq_zero_iff_lt hH h2).1 h3)⟩

/-- Witness of C5: on the 3 × 3 sheet the layout `{5, 1, 0, 0}` asks for tiles wider than
the sheet and is rejected. -/
theorem layout_error_iff_witness :
    Tilesheet.new sheet3x3 ⟨5, 1, 0, 0⟩ = .error .layout :=
  (layout_error_iff sheet3x3 ⟨5, 1, 0, 0⟩ (by decide) (by decide) (by decide)
    (by decide)).1.2 (Or.inl ⟨rfl, Or.inr (by decide)⟩)

/-- C6 as stated fails: on the 3 × 3 sheet with the explicit layout `{2, 2, 2, 1}` the
index `(1, 0)` is inside the grid, yet `get_tile(1, 0)` returns no Tile, because the block
at pixel origin `(2, 0)` of size 2 × 2 reaches outside the sheet canvas. -/
theorem get_tile_in_grid_returns_no_tile :
    Tilesheet.new sheet3x3 ⟨2, 2, 2, 1⟩ = .ok ⟨sheet3x3, ⟨2, 2, 2, 1⟩⟩ ∧
    (0 ≤ (1 : Int) ∧ 1 < (⟨sheet3x3, ⟨2, 2, 2, 1⟩⟩ : Tilesheet Int).layout_.columns ∧
      0 ≤ (0 : Int) ∧ 0 < (⟨sheet3x3, ⟨2, 2, 2, 1⟩⟩ : Tilesheet Int).layout_.rows) ∧
    (⟨sheet3x3, ⟨2, 2, 2, 1⟩⟩ : Tilesheet Int).get_tile 1 0 = .error .canvasRange ∧
    ¬ ∃ t, (⟨sheet3x3, ⟨2, 2, 2, 1⟩⟩ : Tilesheet Int).get_tile 1 0 = .ok t := by
  refine ⟨rfl, by decide, rfl, ?_⟩
  rintro ⟨t, ht⟩
  have h : (⟨sheet3x3, ⟨2, 2, 2, 1⟩⟩ : Tilesheet Int).get_tile 1 0 = .error .canvasRange := rfl
  rw [h] at ht
  cases ht

/-- C6, amended: on a successfully constructed Tilesheet with resolved columns `C` and rows
`R`, `get_tile(x, y)` fails with IndexError if and only if not (`0 ≤ x < C` and
`0 ≤ y < R`); whenever it returns a Tile, `(x, y)` is inside the grid; and for `(x, y)`
inside the grid whose pixel block lies inside the sheet canvas it returns a Tile.  In
particular it fails with IndexError for `x = -1`, `x = C`, `y = -1` and `y = R`. -/
theorem get_tile_validity {α : Type} [Inhabited α] (canvas : Canvas α)
    (layout : TilesheetLayout) (s : Tilesheet α)
    (hs : Tilesheet.new canvas layout = .ok s) (x y : Int) :
    (s.get_tile x y = .error .index ↔
      ¬ (0 ≤ x ∧ x < s.layout_.columns ∧ 0 ≤ y ∧ y < s.layout_.rows)) ∧
    ((∃ t, s.get_tile x y = .ok t) →
      (0 ≤ x ∧ x < s.layout_.columns ∧ 0 ≤ y ∧ y < s.layout_.rows)) ∧
    ((0 ≤ x ∧ x < s.layout_.columns ∧ 0 ≤ y ∧ y < s.layout_.rows) →
      x * s.layout_.tile_width + s.layout_.tile_width ≤ canvas.width →
      y * s.layout_.tile_height + s.layout_.tile_height ≤ canvas.height →
      ∃ t, s.get_tile x y = .ok t) ∧
    s.get_tile (-1) y = .error .index ∧
    s.get_tile s.layout_.columns y = .error .index ∧
    s.get_tile x (-1) = .error .index ∧
    s.get_tile x s.layout_.rows = .error .index := by
  have hc : s.canvas_ = canvas := by
    rw [((new_eq_ok_iff canvas layout s).1 hs).1]
  refine ⟨get_tile_index_error_iff s x y, ?_, ?_, ?_, ?_, ?_, ?_⟩
  · rintro ⟨t, ht⟩
    by_contra hn
    rw [(get_tile_index_error_iff s x y).2 hn] at ht
    cases ht
  · intro hr hbx hby
    rw [← hc] at hbx hby
    exact ⟨_, get_tile_eq_block s x y ⟨hr.1, hr.2.1⟩ ⟨hr.2.2.1, hr.2.2.2⟩ hbx hby⟩
  · rw [get_tile_index_error_iff]
    omega
  · rw [get_tile_index_error_iff]
    omega
  · rw [get_tile_index_error_iff]
    omega
  · rw [get_tile_index_error_iff]
    omega

/-- Witness of C6, amended: on the 3 × 3 sheet cut into 1 × 1 tiles, `get_tile(3, 0)` is
rejected with IndexError and `get_tile(1, 2)` returns a Tile. -/
theorem get_tile_validity_witness :
    (⟨sheet3x3, ⟨1, 1, 3, 3⟩⟩ : Tilesheet Int).get_tile 3 0 = .error .index ∧
    ∃ t, (⟨sheet3x3, ⟨1, 1, 3, 3⟩⟩ : Tilesheet Int).get_tile 1 2 = .ok t :=
  ⟨(get_tile_validity sheet3x3 ⟨1, 1, 0, 0⟩ ⟨sheet3x3, ⟨1, 1, 3, 3⟩⟩ rfl 1 0).2.2.2.2.1,
    (get_tile_validity sheet3x3 ⟨1, 1, 0, 0⟩ ⟨sheet3x3, ⟨1, 1, 3, 3⟩⟩ rfl 1 2).2.2.1
      (by decide) (by decide) (by decide)⟩

/-- C7 as stated fails: on the 3 × 3 sheet with the explicit layout `{3, 3, 2, 2}` the
linear index `n = 3` lies in `[0, C*R) = [0, 4)`, yet `get_tile(3)` does not succeed: it maps
to `(1, 1)`, whose block at pixel origin `(3, 3)` lies outside the sheet canvas. -/
theorem get_tile_n_in_grid_does_not_succeed :
    Tilesheet.new sheet3x3 ⟨3, 3, 2, 2⟩ = .ok ⟨sheet3x3, ⟨3, 3, 2, 2⟩⟩ ∧
    (0 ≤ (3 : Int) ∧ (3 : Int) < (⟨sheet3x3, ⟨3, 3, 2, 2⟩⟩ : Tilesheet Int).layout_.columns *
      (⟨sheet3x3, ⟨3, 3, 2, 2⟩⟩ : Tilesheet Int).layout_.rows) ∧
    (⟨sheet3x3, ⟨3, 3, 2, 2⟩⟩ : Tilesheet Int).get_tile_n 3 = .error .canvasRange :=
  ⟨rfl, by decide, rfl⟩

/-- C7, amended: on a successfully constructed Tilesheet with resolved columns `C > 0` and
rows `R > 0`, for every `n` with `0 ≤ n < C*R`, `get_tile(n)` gives the same result as
`get_tile(n % C, n / C)` (truncating), the pair `(n % C, n / C)` is inside the grid, so
`get_tile(n)` does not fail with IndexError, and when the pixel block of that cell lies
inside the sheet canvas `get_tile(n)` succeeds and returns the `tile_width × tile_height`
block whose pixel origin in the sheet is `((n % C)*tile_width, (n / C)*tile_height)`. -/
theorem get_tile_n_eq_get_tile {α : Type} [Inhabited α] (canvas : Canvas α)
    (layout : TilesheetLayout) (s : Tilesheet α)
    (hs : Tilesheet.new canvas layout = .ok s)
    (hC : 0 < s.layout_.columns) (hR : 0 < s.layout_.rows)
    (n : Int) (hn : 0 ≤ n ∧ n < s.layout_.columns * s.layout_.rows) :
    s.get_tile_n n = s.get_tile (Int.tmod n s.layout_.columns) (Int.tdiv n s.layout_.columns) ∧
    (0 ≤ Int.tmod n s.layout_.columns ∧ Int.tmod n s.layout_.columns < s.layout_.columns ∧
      0 ≤ Int.tdiv n s.layout_.columns ∧ Int.tdiv n s.layout_.columns < s.layout_.rows) ∧
    s.get_tile_n n ≠ .error .index ∧
    (Int.tmod n s.layout_.columns * s.layout_.tile_width + s.layout_.tile_width
        ≤ canvas.width →
      Int.tdiv n s.layout_.columns * s.layout_.tile_height + s.layout_.tile_height
        ≤ canvas.height →
      s.get_tile_n n = .ok (Tile.mk (block_canvas canvas
        (Int.tmod n s.layout_.columns * s.layout_.tile_width)
        (Int.tdiv n s.layout_.columns * s.layout_.tile_height)
        s.layout_.tile_width s.layout_.tile_height))) := by
  have hc : s.canvas_ = canvas := by
    rw [((new_eq_ok_iff canvas layout s).1 hs).1]
  have hg := (linear_index_in_grid_iff s.layout_.columns s.layout_.rows n hC hR).2 hn
  refine ⟨rfl, hg, ?_, ?_⟩
  · intro h
    exact (get_tile_index_error_iff s _ _).1 h hg
  · intro hbx hby
    rw [← hc] at hbx hby ⊢
    exact get_tile_eq_block s _ _ ⟨hg.1, hg.2.1⟩ ⟨hg.2.2.1, hg.2.2.2⟩ hbx hby

/-- Witness of C7, amended: on the 64 × 32 sheet with layout `{8, 8, 0, 0}`, `n = 10` maps
to `(x, y) = (2, 1)` and `get_tile(10)` returns the 8 × 8 block at pixel origin `(16, 8)`. -/
theorem get_tile_n_eq_get_tile_witness :
    Int.tmod 10 8 = 2 ∧ Int.tdiv 10 8 = 1 ∧
    (⟨sheet64x32, ⟨8, 8, 8, 4⟩⟩ : Tilesheet Int).get_tile_n 10
      = .ok (Tile.mk (block_canvas sheet64x32 (Int.tmod 10 8 * 8) (Int.tdiv 10 8 * 8) 8 8)) ∧
    (block_canvas sheet64x32 (Int.tmod 10 8 * 8) (Int.tdiv 10 8 * 8) 8 8).pixels 0 0
      = sheet64x32.pixels 16 8 :=
  ⟨by decide, by decide,
    (get_tile_n_eq_get_tile sheet64x32 ⟨8, 8, 0, 0⟩ ⟨sheet64x32, ⟨8, 8, 8, 4⟩⟩ rfl
      (by decide) (by decide) 10 (by decide)).2.2.2 (by decide) (by decide),
    by decide⟩

/-- C8: on a Tilesheet with resolved columns `C > 0` and rows `R > 0` (in particular a
successfully constructed one), for every integer `n`, `get_tile(n)` fails with IndexError
if and only if `n < 0` or `n ≥ C*R` (with truncating `%` and `/`); every `n ≥ C*R` maps to a
`y ≥ R`; and `n = -1` and `n = C*R` are rejected. -/
theorem get_tile_n_index_error_iff {α : Type} [Inhabited α] (s : Tilesheet α)
    (hC : 0 < s.layout_.columns) (hR : 0 < s.layout_.rows) (n : Int) :
    (s.get_tile_n n = .error .index ↔ (n < 0 ∨ n ≥ s.layout_.columns * s.layout_.rows)) ∧
    (n ≥ s.layout_.columns * s.layout_.rows → Int.tdiv n s.layout_.columns ≥ s.layout_.rows) ∧
    s.get_tile_n (-1) = .error .index ∧
    s.get_tile_n (s.layout_.columns * s.layout_.rows) = .error .index := by
  have hiff : ∀ m : Int, s.get_tile_n m = .error .index ↔
      (m < 0 ∨ m ≥ s.layout_.columns * s.layout_.rows) := by
    intro m
    rw [Tilesheet.get_tile_n, get_tile_index_error_iff,
      linear_index_in_grid_iff s.layout_.columns s.layout_.rows m hC hR]
    omega
  refine ⟨hiff n, ?_, ?_, ?_⟩
  · intro h
    exact linear_index_row_ge _ _ n hC hR h
  · rw [hiff]
    exact Or.inl (by decide)
  · rw [hiff]
    exact Or.inr (Int.le_refl _)

/-- Witness of C8: on the 3 × 3 sheet cut into a single column of three 3 × 1 tiles
(`C = 1`, `R = 3`), `get_tile(-1)` and `get_tile(3)` fail with IndexError. -/
theorem get_tile_n_index_error_iff_witness :
    (⟨sheet3x3, ⟨3, 1, 1, 3⟩⟩ : Tilesheet Int).get_tile_n (-1) = .error .index ∧
    (⟨sheet3x3, ⟨3, 1, 1, 3⟩⟩ : Tilesheet Int).get_tile_n 3 = .error .index :=
  ⟨(get_tile_n_index_error_iff ⟨sheet3x3, ⟨3, 1, 1, 3⟩⟩ (by decide) (by decide) (-1)).1.2
      (Or.inl (by decide)),
    (get_tile_n_index_error_iff ⟨sheet3x3, ⟨3, 1, 1, 3⟩⟩ (by decide) (by decide) 3).1.2
      (Or.inr (by decide))⟩

/-- C9 as stated fails: on the 3 × 3 sheet the explicit layout `{2, 2, 3, 3}` (all fields
non-negative) is accepted by the constructor and `(2, 2)` is accepted by the grid check of
`get_tile`, yet the block passed to `new_tile` does not lie inside the sheet:
`2*2 + 2 = 6 > 3` on both axes, and the first canvas read is out of range. -/
theorem get_tile_block_outside_canvas :
    Tilesheet.new sheet3x3 ⟨2, 2, 3, 3⟩ = .ok ⟨sheet3x3, ⟨2, 2, 3, 3⟩⟩ ∧
    (0 ≤ (2 : Int) ∧ 2 < (⟨sheet3x3, ⟨2, 2, 3, 3⟩⟩ : Tilesheet Int).layout_.columns ∧
      0 ≤ (2 : Int) ∧ 2 < (⟨sheet3x3, ⟨2, 2, 3, 3⟩⟩ : Tilesheet Int).layout_.rows) ∧
    ¬ (2 * (⟨sheet3x3, ⟨2, 2, 3, 3⟩⟩ : Tilesheet Int).layout_.tile_width
        + (⟨sheet3x3, ⟨2, 2, 3, 3⟩⟩ : Tilesheet Int).layout_.tile_width ≤ sheet3x3.width) ∧
    ¬ (2 * (⟨sheet3x3, ⟨2, 2, 3, 3⟩⟩ : Tilesheet Int).layout_.tile_height
        + (⟨sheet3x3, ⟨2, 2, 3, 3⟩⟩ : Tilesheet Int).layout_.tile_height ≤ sheet3x3.height) ∧
    sheet3x3.at (2 * 2 + 0) (2 * 2 + 0) = .error .canvasRange ∧
    (⟨sheet3x3, ⟨2, 2, 3, 3⟩⟩ : Tilesheet Int).get_tile 2 2 = .error .canvasRange :=
  ⟨rfl, by decide, by decide, by decide, rfl, rfl⟩

/-- C9, amended: on a successfully constructed Tilesheet over a `W × H` canvas
(`W, H ≥ 0`) whose resolved grid fits the canvas, `columns * tile_width ≤ W` and
`rows * tile_height ≤ H`, every `(x, y)` accepted by `get_tile` has its pixel block inside
the sheet, `x*tile_width + tile_width ≤ W` and `y*tile_height + tile_height ≤ H`, every
canvas read of `new_tile` is at an in-range coordinate, and `get_tile(x, y)` returns a
Tile. -/
theorem get_tile_block_in_canvas {α : Type} [Inhabited α] (canvas : Canvas α)
    (layout : TilesheetLayout) (s : Tilesheet α)
    (hs : Tilesheet.new canvas layout = .ok s)
    (hW : 0 ≤ canvas.width) (hH : 0 ≤ canvas.height)
    (hfw : s.layout_.columns * s.layout_.tile_width ≤ canvas.width)
    (hfh : s.layout_.rows * s.layout_.tile_height ≤ canvas.height)
    (x y : Int) (hx : 0 ≤ x ∧ x < s.layout_.columns) (hy : 0 ≤ y ∧ y < s.layout_.rows) :
    x * s.layout_.tile_width + s.layout_.tile_width ≤ canvas.width ∧
    y * s.layout_.tile_height + s.layout_.tile_height ≤ canvas.height ∧
    (∀ px py : Int, 0 ≤ px → px < s.layout_.tile_width →
      0 ≤ py → py < s.layout_.tile_height →
      canvas.in_range (x * s.layout_.tile_width + px) (y * s.layout_.tile_height + py)
        = true) ∧
    ∃ t, s.get_tile x y = .ok t := by
  have hc : s.canvas_ = canvas := by
    rw [((new_eq_ok_iff canvas layout s).1 hs).1]
  have hbx : x * s.layout_.tile_width + s.layout_.tile_width ≤ canvas.width := by
    by_cases h : 0 ≤ s.layout_.tile_width
    · have h1 : (x + 1) * s.layout_.tile_width ≤ s.layout_.columns * s.layout_.tile_width :=
        Int.mul_le_mul_of_nonneg_right (by omega) h
      have h2 : (x + 1) * s.layout_.tile_width
          = x * s.layout_.tile_width + s.layout_.tile_width := by ring
      omega
    · have h1 : x * s.layout_.tile_width ≤ 0 :=
        Int.mul_nonpos_of_nonneg_of_nonpos hx.1 (by omega)
      omega
  have hby : y * s.layout_.tile_height + s.layout_.tile_height ≤ canvas.height := by
    by_cases h : 0 ≤ s.layout_.tile_height
    · have h1 : (y + 1) * s.layout_.tile_height ≤ s.layout_.rows * s.layout_.tile_height :=
        Int.mul_le_mul_of_nonneg_right (by omega) h
      have h2 : (y + 1) * s.layout_.tile_height
          = y * s.layout_.tile_height + s.layout_.tile_height := by ring
      omega
    · have h1 : y * s.layout_.tile_height ≤ 0 :=
        Int.mul_nonpos_of_nonneg_of_nonpos hy.1 (by omega)
      omega
  refine ⟨hbx, hby, ?_, ?_⟩
  · intro px py h1 h2 h3 h4
    rw [Canvas.in_range_iff]
    have hxw : 0 ≤ x * s.layout_.tile_width := Int.mul_nonneg hx.1 (by omega)
    have hyh : 0 ≤ y * s.layout_.tile_height := Int.mul_nonneg hy.1 (by omega)
    omega
  · rw [← hc] at hbx hby
    exact ⟨_, get_tile_eq_block s x y hx hy hbx hby⟩

/-- Witness of C9, amended: tile `(7, 3)` of the 64 × 32 sheet cut into 8 × 8 tiles. -/
theorem get_tile_block_in_canvas_witness :
    7 * (8 : Int) + 8 ≤ sheet64x32.width ∧ 3 * (8 : Int) + 8 ≤ sheet64x32.height ∧
    ∃ t, (⟨sheet64x32, ⟨8, 8, 8, 4⟩⟩ : Tilesheet Int).get_tile 7 3 = .ok t :=
  have h := get_tile_block_in_canvas sheet64x32 ⟨8, 8, 0, 0⟩ ⟨sheet64x32, ⟨8, 8, 8, 4⟩⟩ rfl
    (by decide) (by decide) (by decide) (by decide) 7 3 (by decide) (by decide)
  ⟨h.1, h.2.1, h.2.2.2⟩

/-- C10: when construction succeeds, each field of the input layout that is non-zero has
exactly the same value in the resolved layout (`fill_layout` only writes to a field that
was 0); in particular when both `tile_width` and `columns` are supplied neither is
recomputed, and likewise for `tile_height` and `rows`. -/
theorem fill_layout_keeps_explicit {α : Type} (canvas : Canvas α)
    (layout : TilesheetLayout) (s : Tilesheet α)
    (hs : Tilesheet.new canvas layout = .ok s) :
    (layout.tile_width ≠ 0 → s.layout_.tile_width = layout.tile_width) ∧
    (layout.tile_height ≠ 0 → s.layout_.tile_height = layout.tile_height) ∧
    (layout.columns ≠ 0 → s.layout_.columns = layout.columns) ∧
    (layout.rows ≠ 0 → s.layout_.rows = layout.rows) ∧
    (layout.tile_width ≠ 0 → layout.columns ≠ 0 →
      s.layout_.tile_width = layout.tile_width ∧ s.layout_.columns = layout.columns) ∧
    (layout.tile_height ≠ 0 → layout.rows ≠ 0 →
      s.layout_.tile_height = layout.tile_height ∧ s.layout_.rows = layout.rows) := by
  have hl : s.layout_ = fill_layout_fields canvas.width canvas.height layout := by
    rw [((new_eq_ok_iff canvas layout s).1 hs).1]
  have h1 : layout.tile_width ≠ 0 → s.layout_.tile_width = layout.tile_width := by
    intro h
    rw [hl, fill_layout_fields_tile_width, if_neg (fun hn => h hn.1)]
  have h2 : layout.tile_height ≠ 0 → s.layout_.tile_height = layout.tile_height := by
    intro h
    rw [hl, fill_layout_fields_tile_height, if_neg (fun hn => h hn.1)]
  have h3 : layout.columns ≠ 0 → s.layout_.columns = layout.columns := by
    intro h
    rw [hl, fill_layout_fields_columns, if_neg (fun hn => h hn.1)]
  have h4 : layout.rows ≠ 0 → s.layout_.rows = layout.rows := by
    intro h
    rw [hl, fill_layout_fields_rows, if_neg (fun hn => h hn.1)]
  exact ⟨h1, h2, h3, h4, fun a b => ⟨h1 a, h3 b⟩, fun a b => ⟨h2 a, h4 b⟩⟩

/-- Witness of C10: on the 64 × 32 sheet the layout `{8, 8, 0, 0}` keeps its tile size. -/
theorem fill_layout_keeps_explicit_witness :
    (⟨sheet64x32, ⟨8, 8, 8, 4⟩⟩ : Tilesheet Int).layout_.tile_width = 8 ∧
    (⟨sheet64x32, ⟨8, 8, 8, 4⟩⟩ : Tilesheet Int).layout_.tile_height = 8 :=
  have h := fill_layout_keeps_explicit sheet64x32 ⟨8, 8, 0, 0⟩ ⟨sheet64x32, ⟨8, 8, 8, 4⟩⟩ rfl
  ⟨h.1 (by decide), h.2.1 (by decide)⟩

/-- C11: on a canvas of any size, for every input layout whose four fields are all
positive, construction succeeds and the resolved layout equals the input layout; no
relation between `tile_width * columns` and `W`, or `tile_height * rows` and `H`, is
required. -/
theorem fill_layout_explicit_unchecked {α : Type} (canvas : Canvas α)
    (layout : TilesheetLayout)
    (htw : 0 < layout.tile_width) (hth : 0 < layout.tile_height)
    (hc : 0 < layout.columns) (hr : 0 < layout.rows) :
    Tilesheet.new canvas layout = .ok ⟨canvas, layout⟩ := by
  rw [new_eq_ok_iff]
  have hf : fill_layout_fields canvas.width canvas.height layout = layout := by
    have h1 : ¬ layout.tile_width = 0 := by omega
    have h2 : ¬ layout.tile_height = 0 := by omega
    have h3 : ¬ layout.columns = 0 := by omega
    have h4 : ¬ layout.rows = 0 := by omega
    simp [fill_layout_fields, h1, h2, h3, h4]
  rw [hf]
  exact ⟨rfl, Int.ne_of_gt hc, Int.ne_of_gt hr⟩

/-- Witness of C11: on the 3 × 3 sheet the layout `{2, 2, 3, 3}` is accepted unchanged
although `tile_width * columns = 6 > 3`. -/
theorem fill_layout_explicit_unchecked_witness :
    Tilesheet.new sheet3x3 ⟨2, 2, 3, 3⟩ = .ok ⟨sheet3x3, ⟨2, 2, 3, 3⟩⟩ ∧
    (2 : Int) * 3 > sheet3x3.width :=
  ⟨fill_layout_explicit_unchecked sheet3x3 ⟨2, 2, 3, 3⟩ (by decide) (by decide) (by decide)
    (by decide), by decide⟩

/-- C13: for two constructions that both succeed and agree on the canvas width and on the
input `tile_width` and `columns`, the resolved `tile_width` and `columns` are equal, whatever
the canvas heights and the input `tile_height` and `rows` are; symmetrically the resolved
`tile_height` and `rows` depend only on the canvas height and the input `tile_height` and
`rows`. -/
theorem fill_layout_axis_independent {α : Type} (canvas1 canvas2 : Canvas α)
    (layout1 layout2 : TilesheetLayout) (s1 s2 : Tilesheet α)
    (hs1 : Tilesheet.new canvas1 layout1 = .ok s1)
    (hs2 : Tilesheet.new canvas2 layout2 = .ok s2) :
    (canvas1.width = canvas2.width → layout1.tile_width = layout2.tile_width →
      layout1.columns = layout2.columns →
      s1.layout_.tile_width = s2.layout_.tile_width ∧
        s1.layout_.columns = s2.layout_.columns) ∧
    (canvas1.height = canvas2.height → layout1.tile_height = layout2.tile_height →
      layout1.rows = layout2.rows →
      s1.layout_.tile_height = s2.layout_.tile_height ∧
        s1.layout_.rows = s2.layout_.rows) := by
  have hl1 : s1.layout_ = fill_layout_fields canvas1.width canvas1.height layout1 := by
    rw [((new_eq_ok_iff canvas1 layout1 s1).1 hs1).1]
  have hl2 : s2.layout_ = fill_layout_fields canvas2.width canvas2.height layout2 := by
    rw [((new_eq_ok_iff canvas2 layout2 s2).1 hs2).1]
  constructor
  · intro hw ht hc
    rw [hl1, hl2, fill_layout_fields_tile_width, fill_layout_fields_tile_width,
      fill_layout_fields_columns, fill_layout_fields_columns, hw, ht, hc]
    exact ⟨rfl, rfl⟩
  · intro hh ht hr
    rw [hl1, hl2, fill_layout_fields_tile_height, fill_layout_fields_tile_height,
      fill_layout_fields_rows, fill_layout_fields_rows, hh, ht, hr]
    exact ⟨rfl, rfl⟩

/-- Witness of C13: on the 64 × 32 sheet the layouts `{8, 8, 0, 0}` and `{8, 0, 0, 2}`
agree on the width axis and differ on the height axis; both resolve to `tile_width = 8`
and `columns = 8`. -/
theorem fill_layout_axis_independent_witness :
    (⟨sheet64x32, ⟨8, 8, 8, 4⟩⟩ : Tilesheet Int).layout_.tile_width
        = (⟨sheet64x32, ⟨8, 16, 8, 2⟩⟩ : Tilesheet Int).layout_.tile_width ∧
    (⟨sheet64x32, ⟨8, 8, 8, 4⟩⟩ : Tilesheet Int).layout_.columns
        = (⟨sheet64x32, ⟨8, 16, 8, 2⟩⟩ : Tilesheet Int).layout_.columns :=
  (fill_layout_axis_independent sheet64x32 sheet64x32 ⟨8, 8, 0, 0⟩ ⟨8, 0, 0, 2⟩
    ⟨sheet64x32, ⟨8, 8, 8, 4⟩⟩ ⟨sheet64x32, ⟨8, 16, 8, 2⟩⟩ rfl rfl).1 rfl rfl rfl

/-- C16: when `fill_layout` succeeds on a canvas with resolved layout `L`, running
`fill_layout` again on the same canvas with `L` as input succeeds and yields `L`
unchanged. -/
theorem fill_layout_idempotent {α : Type} (canvas : Canvas α)
    (layout : TilesheetLayout) (s : Tilesheet α)
    (hs : Tilesheet.new canvas layout = .ok s) :
    Tilesheet.new canvas s.layout_ = .ok s ∧ s.fill_layout = .ok s := by
  obtain ⟨hs1, hc0, hr0⟩ := (new_eq_ok_iff canvas layout s).1 hs
  have hcv : s.canvas_ = canvas := by rw [hs1]
  have hl : s.layout_ = fill_layout_fields canvas.width canvas.height layout := by
    rw [hs1]
  rw [← hl] at hc0 hr0
  have hcol := fill_layout_fields_columns canvas.width canvas.height layout
  have hrow := fill_layout_fields_rows canvas.width canvas.height layout
  have hwid := fill_layout_fields_tile_width canvas.width canvas.height layout
  have hhei := fill_layout_fields_tile_height canvas.width canvas.height layout
  rw [← hl] at hcol hrow hwid hhei
  have h1 : (fill_layout_fields canvas.width canvas.height s.layout_).columns
      = s.layout_.columns := by
    rw [fill_layout_fields_columns, if_neg (fun hn => hc0 hn.1)]
  have h2 : (fill_layout_fields canvas.width canvas.height s.layout_).rows
      = s.layout_.rows := by
    rw [fill_layout_fields_rows, if_neg (fun hn => hr0 hn.1)]
  have h3 : (fill_layout_fields canvas.width canvas.height s.layout_).tile_width
      = s.layout_.tile_width := by
    rw [fill_layout_fields_tile_width]
    split_ifs with h
    · split_ifs at hwid with h5
      · have h6 : s.layout_.columns = layout.columns := by
          rw [hcol, if_neg (fun hn => by omega)]
        rw [h6, ← hwid]
      · omega
    · rfl
  have h4 : (fill_layout_fields canvas.width canvas.height s.layout_).tile_height
      = s.layout_.tile_height := by
    rw [fill_layout_fields_tile_height]
    split_ifs with h
    · split_ifs at hhei with h5
      · have h6 : s.layout_.rows = layout.rows := by
          rw [hrow, if_neg (fun hn => by omega)]
        rw [h6, ← hhei]
      · omega
    · rfl
  have hfix : fill_layout_fields canvas.width canvas.height s.layout_ = s.layout_ := by
    cases hfl : fill_layout_fields canvas.width canvas.height s.layout_ with
    | mk a b c d =>
      rw [hfl] at h1 h2 h3 h4
      cases hsl : s.layout_ with
      | mk a1 b1 c1 d1 =>
        rw [hsl] at h1 h2 h3 h4
        simp only at h1 h2 h3 h4
        rw [h1, h2, h3, h4]
  have hnew : Tilesheet.new canvas s.layout_ = .ok s := by
    rw [new_eq_ok_iff, hfix]
    refine ⟨?_, hc0, hr0⟩
    cases s
    simp only [Tilesheet.mk.injEq, and_true]
    exact hcv
  refine ⟨hnew, ?_⟩
  have h7 : s.fill_layout = Tilesheet.new s.canvas_ s.layout_ := rfl
  rw [h7, hcv]
  exact hnew

/-- Witness of C16: the 64 × 32 sheet with layout `{8, 8, 0, 0}` resolves to
`{8, 8, 8, 4}`, and resolving `{8, 8, 8, 4}` again changes nothing. -/
theorem fill_layout_idempotent_witness :
    Tilesheet.new sheet64x32 (⟨sheet64x32, ⟨8, 8, 8, 4⟩⟩ : Tilesheet Int).layout_
        = .ok ⟨sheet64x32, ⟨8, 8, 8, 4⟩⟩ ∧
    (⟨sheet64x32, ⟨8, 8, 8, 4⟩⟩ : Tilesheet Int).fill_layout
        = .ok ⟨sheet64x32, ⟨8, 8, 8, 4⟩⟩ :=
  fill_layout_idempotent sheet64x32 ⟨8, 8, 0, 0⟩ ⟨sheet64x32, ⟨8, 8, 8, 4⟩⟩ rfl

/-- C14: on a `W × H` canvas with `W, H ≥ 0`, for an input layout in which at least one of
`tile_width`, `columns` is 0 and at least one of `tile_height`, `rows` is 0, if construction
succeeds then `columns * tile_width ≤ W` and `rows * tile_height ≤ H`; hence for every
`(x, y)` accepted by `get_tile`, `(x+1)*tile_width ≤ W` and `(y+1)*tile_height ≤ H`, every
canvas read of `new_tile` is at an in-range coordinate, and `get_tile(x, y)` returns a
Tile. -/
theorem derived_layout_in_bounds {α : Type} [Inhabited α] (canvas : Canvas α)
    (layout : TilesheetLayout) (s : Tilesheet α)
    (hs : Tilesheet.new canvas layout = .ok s)
    (hW : 0 ≤ canvas.width) (hH : 0 ≤ canvas.height)
    (hzw : layout.tile_width = 0 ∨ layout.columns = 0)
    (hzh : layout.tile_height = 0 ∨ layout.rows = 0) :
    s.layout_.columns * s.layout_.tile_width ≤ canvas.width ∧
    s.layout_.rows * s.layout_.tile_height ≤ canvas.height ∧
    ∀ x y : Int, 0 ≤ x ∧ x < s.layout_.columns → 0 ≤ y ∧ y < s.layout_.rows →
      (x + 1) * s.layout_.tile_width ≤ canvas.width ∧
      (y + 1) * s.layout_.tile_height ≤ canvas.height ∧
      (∀ px py : Int, 0 ≤ px → px < s.layout_.tile_width →
        0 ≤ py → py < s.layout_.tile_height →
        canvas.in_range (x * s.layout_.tile_width + px) (y * s.layout_.tile_height + py)
          = true) ∧
      ∃ t, s.get_tile x y = .ok t := by
  have hc : s.canvas_ = canvas := by
    rw [((new_eq_ok_iff canvas layout s).1 hs).1]
  have hfw := derived_width_fits canvas layout s hs hW hzw
  have hfh := derived_height_fits canvas layout s hs hH hzh
  refine ⟨hfw, hfh, ?_⟩
  intro x y hx hy
  have hbx := block_le_of_fits _ _ _ x hW hfw hx
  have hby := block_le_of_fits _ _ _ y hH hfh hy
  have hx1 : (x + 1) * s.layout_.tile_width
      = x * s.layout_.tile_width + s.layout_.tile_width := by ring
  have hy1 : (y + 1) * s.layout_.tile_height
      = y * s.layout_.tile_height + s.layout_.tile_height := by ring
  refine ⟨by rw [hx1]; exact hbx, by rw [hy1]; exact hby, ?_, ?_⟩
  · intro px py h1 h2 h3 h4
    rw [Canvas.in_range_iff]
    have hxw : 0 ≤ x * s.layout_.tile_width := Int.mul_nonneg hx.1 (by omega)
    have hyh : 0 ≤ y * s.layout_.tile_height := Int.mul_nonneg hy.1 (by omega)
    omega
  · rw [← hc] at hbx hby
    exact ⟨_, get_tile_eq_block s x y hx hy hbx hby⟩

/-- Witness of C14: the 3 × 3 sheet cut into 2 × 2 tiles (`{2, 2, 0, 0}` resolves to one
column and one row, `1 * 2 ≤ 3`), and its only tile `(0, 0)`. -/
theorem derived_layout_in_bounds_witness :
    (1 : Int) * 2 ≤ sheet3x3.width ∧ (1 : Int) * 2 ≤ sheet3x3.height ∧
    ∃ t, (⟨sheet3x3, ⟨2, 2, 1, 1⟩⟩ : Tilesheet Int).get_tile 0 0 = .ok t :=
  have h := derived_layout_in_bounds sheet3x3 ⟨2, 2, 0, 0⟩ ⟨sheet3x3, ⟨2, 2, 1, 1⟩⟩ rfl
    (by decide) (by decide) (Or.inr rfl) (Or.inr rfl)
  ⟨h.1, h.2.1, (h.2.2 0 0 (by decide) (by decide)).2.2.2⟩

/-- C15 as stated fails: on the 3 × 3 sheet with the explicit layout `{2, 2, 2, 2}` the cell
`(1, 1)` is inside the grid, yet `get_tile(1*2 + 1)` does not succeed: the block at pixel
origin `(2, 2)` of size 2 × 2 reaches outside the sheet canvas. -/
theorem get_tile_row_major_does_not_succeed :
    Tilesheet.new sheet3x3 ⟨2, 2, 2, 2⟩ = .ok ⟨sheet3x3, ⟨2, 2, 2, 2⟩⟩ ∧
    (0 ≤ (1 : Int) ∧ 1 < (⟨sheet3x3, ⟨2, 2, 2, 2⟩⟩ : Tilesheet Int).layout_.columns ∧
      0 ≤ (1 : Int) ∧ 1 < (⟨sheet3x3, ⟨2, 2, 2, 2⟩⟩ : Tilesheet Int).layout_.rows) ∧
    (⟨sheet3x3, ⟨2, 2, 2, 2⟩⟩ : Tilesheet Int).get_tile_n
      (1 * (⟨sheet3x3, ⟨2, 2, 2, 2⟩⟩ : Tilesheet Int).layout_.columns + 1)
      = .error .canvasRange :=
  ⟨rfl, by decide, rfl⟩

/-- C15, amended: on a successfully constructed Tilesheet with resolved columns `C > 0` and
rows `R > 0`, for every `(x, y)` with `0 ≤ x < C` and `0 ≤ y < R`, the linear index
`y*C + x` maps back to `(x, y)`, so `get_tile(y*C + x)` gives the same result as
`get_tile(x, y)` and does not fail with IndexError; when the pixel block of the cell lies
inside the sheet canvas both succeed and return the same Tile; and two linear indices in
`[0, C*R)` that address the same grid cell are equal. -/
theorem get_tile_row_major {α : Type} [Inhabited α] (canvas : Canvas α)
    (layout : TilesheetLayout) (s : Tilesheet α)
    (hs : Tilesheet.new canvas layout = .ok s)
    (hC : 0 < s.layout_.columns) (hR : 0 < s.layout_.rows)
    (x y : Int) (hx : 0 ≤ x ∧ x < s.layout_.columns) (hy : 0 ≤ y ∧ y < s.layout_.rows) :
    (Int.tmod (y * s.layout_.columns + x) s.layout_.columns = x ∧
      Int.tdiv (y * s.layout_.columns + x) s.layout_.columns = y) ∧
    (0 ≤ y * s.layout_.columns + x ∧
      y * s.layout_.columns + x < s.layout_.columns * s.layout_.rows) ∧
    s.get_tile_n (y * s.layout_.columns + x) = s.get_tile x y ∧
    s.get_tile_n (y * s.layout_.columns + x) ≠ .error .index ∧
    (x * s.layout_.tile_width + s.layout_.tile_width ≤ canvas.width →
      y * s.layout_.tile_height + s.layout_.tile_height ≤ canvas.height →
      ∃ t, s.get_tile_n (y * s.layout_.columns + x) = .ok t ∧ s.get_tile x y = .ok t) ∧
    (∀ n m : Int, 0 ≤ n ∧ n < s.layout_.columns * s.layout_.rows →
      0 ≤ m ∧ m < s.layout_.columns * s.layout_.rows →
      Int.tmod n s.layout_.columns = Int.tmod m s.layout_.columns →
      Int.tdiv n s.layout_.columns = Int.tdiv m s.layout_.columns → n = m) := by
  have hc : s.canvas_ = canvas := by
    rw [((new_eq_ok_iff canvas layout s).1 hs).1]
  have hrm := linear_index_row_major s.layout_.columns x y hx hy.1
  have heq : s.get_tile_n (y * s.layout_.columns + x) = s.get_tile x y := by
    rw [Tilesheet.get_tile_n, hrm.1, hrm.2]
  have hgrid : 0 ≤ x ∧ x < s.layout_.columns ∧ 0 ≤ y ∧ y < s.layout_.rows :=
    ⟨hx.1, hx.2, hy.1, hy.2⟩
  have hn : 0 ≤ y * s.layout_.columns + x ∧
      y * s.layout_.columns + x < s.layout_.columns * s.layout_.rows := by
    have h1 := (linear_index_in_grid_iff s.layout_.columns s.layout_.rows
      (y * s.layout_.columns + x) hC hR).1
    rw [hrm.1, hrm.2] at h1
    exact h1 hgrid
  refine ⟨hrm, hn, heq, ?_, ?_, ?_⟩
  · rw [heq]
    intro h
    exact (get_tile_index_error_iff s x y).1 h hgrid
  · intro hbx hby
    rw [← hc] at hbx hby
    exact ⟨_, by rw [heq]; exact get_tile_eq_block s x y hx hy hbx hby,
      get_tile_eq_block s x y hx hy hbx hby⟩
  · intro n m _ _ h1 h2
    have hn1 := Int.tmod_add_tdiv n s.layout_.columns
    have hm1 := Int.tmod_add_tdiv m s.layout_.columns
    rw [h1, h2] at hn1
    omega

/-- Witness of C15, amended: on the 64 × 32 sheet cut into 8 × 8 tiles, the cell `(2, 1)`
has linear index `1*8 + 2 = 10`, and `get_tile(10)` returns the same Tile as
`get_tile(2, 1)`. -/
theorem get_tile_row_major_witness :
    (⟨sheet64x32, ⟨8, 8, 8, 4⟩⟩ : Tilesheet Int).get_tile_n (1 * 8 + 2)
        = (⟨sheet64x32, ⟨8, 8, 8, 4⟩⟩ : Tilesheet Int).get_tile 2 1 ∧
    ∃ t, (⟨sheet64x32, ⟨8, 8, 8, 4⟩⟩ : Tilesheet Int).get_tile_n (1 * 8 + 2) = .ok t ∧
      (⟨sheet64x32, ⟨8, 8, 8, 4⟩⟩ : Tilesheet Int).get_tile 2 1 = .ok t :=
  have h := get_tile_row_major sheet64x32 ⟨8, 8, 0, 0⟩ ⟨sheet64x32, ⟨8, 8, 8, 4⟩⟩ rfl
    (by decide) (by decide) 2 1 (by decide) (by decide)
  ⟨h.2.2.1, h.2.2.2.2.1 (by decide) (by decide)⟩

/-- C17 as stated fails: on the 3 × 3 sheet the layout `{1, 1, -1, 1}` is accepted by the
constructor (no assignment fires and `columns`, `rows` are non-zero), and for `n = INT_MIN`
the `n % columns` and `n / columns` of `get_tile(n)` are undefined although `columns ≠ 0`:
the quotient `INT_MIN / -1 = 2147483648` is not representable in `int`. -/
theorem get_tile_n_int_min_undefined :
    Tilesheet.new sheet3x3 ⟨1, 1, -1, 1⟩ = .ok ⟨sheet3x3, ⟨1, 1, -1, 1⟩⟩ ∧
    (⟨sheet3x3, ⟨1, 1, -1, 1⟩⟩ : Tilesheet Int).layout_.columns ≠ 0 ∧
    (INT_MIN ≤ INT_MIN ∧ INT_MIN ≤ INT_MAX) ∧
    Int.tdiv INT_MIN (⟨sheet3x3, ⟨1, 1, -1, 1⟩⟩ : Tilesheet Int).layout_.columns
      = 2147483648 ∧
    int_mod INT_MIN (⟨sheet3x3, ⟨1, 1, -1, 1⟩⟩ : Tilesheet Int).layout_.columns = none ∧
    int_div INT_MIN (⟨sheet3x3, ⟨1, 1, -1, 1⟩⟩ : Tilesheet Int).layout_.columns = none ∧
    (⟨sheet3x3, ⟨1, 1, -1, 1⟩⟩ : Tilesheet Int).get_tile_n_checked INT_MIN = none :=
  ⟨rfl, by decide, by decide, by decide, by decide, by decide, rfl⟩

/-- C17, amended: for every canvas and every input layout, with fields of any sign, every
division executed by `fill_layout` has a strictly positive divisor (the recorded run
computes the same resolved fields as `fill_layout`), and if construction succeeds the
resolved `columns` is non-zero, so for every `int` value `n` the `n % columns` and
`n / columns` of `get_tile(n)` are defined, and `get_tile(n)` is
`get_tile(n % columns, n / columns)`, except for `n = INT_MIN` when the resolved `columns`
is `-1`, where they are undefined; in particular they are defined for every `n` when
`W ≥ 0` and the input `columns` is non-negative. -/
theorem no_division_by_zero {α : Type} [Inhabited α] (canvas : Canvas α)
    (layout : TilesheetLayout) :
    (fill_layout_traced canvas.width canvas.height layout).1
      = fill_layout_fields canvas.width canvas.height layout ∧
    (∀ d ∈ (fill_layout_traced canvas.width canvas.height layout).2, 0 < d) ∧
    (∀ s : Tilesheet α, Tilesheet.new canvas layout = .ok s →
      s.layout_.columns ≠ 0 ∧
      (∀ n : Int, INT_MIN ≤ n ∧ n ≤ INT_MAX →
        (¬ (n = INT_MIN ∧ s.layout_.columns = -1) →
          int_mod n s.layout_.columns = some (Int.tmod n s.layout_.columns) ∧
          int_div n s.layout_.columns = some (Int.tdiv n s.layout_.columns) ∧
          s.get_tile_n_checked n = some (s.get_tile_n n)) ∧
        (s.get_tile_n_checked n = none ↔ (n = INT_MIN ∧ s.layout_.columns = -1))) ∧
      (0 ≤ canvas.width → 0 ≤ layout.columns →
        0 < s.layout_.columns ∧
        ∀ n : Int, INT_MIN ≤ n ∧ n ≤ INT_MAX →
          s.get_tile_n_checked n = some (s.get_tile_n n))) := by
  refine ⟨fill_layout_traced_fst _ _ _, fill_layout_traced_divisors_pos _ _ _, ?_⟩
  intro s hs
  obtain ⟨hs1, hc0, _⟩ := (new_eq_ok_iff canvas layout s).1 hs
  have hl : s.layout_ = fill_layout_fields canvas.width canvas.height layout := by
    rw [hs1]
  rw [← hl] at hc0
  refine ⟨hc0, ?_, ?_⟩
  · intro n hn
    constructor
    · intro hex
      exact ⟨int_mod_eq_some n _ hn hc0 hex, int_div_eq_some n _ hn hc0 hex,
        get_tile_n_checked_eq_some s n hn hc0 hex⟩
    · constructor
      · intro hnone
        by_contra hex
        rw [get_tile_n_checked_eq_some s n hn hc0 hex] at hnone
        cases hnone
      · rintro ⟨h1, h2⟩
        rw [h1]
        exact get_tile_n_checked_int_min s h2
  · intro hW hc
    have hcol := fill_layout_fields_columns canvas.width canvas.height layout
    rw [← hl] at hcol
    have hpos : 0 < s.layout_.columns := by
      split_ifs at hcol with h
      · have := tdiv_nonneg_of_nonneg hW h.2
        omega
      · omega
    refine ⟨hpos, ?_⟩
    intro n hn
    exact get_tile_n_checked_eq_some s n hn hc0 (fun h => by omega)

/-- Witness of C17, amended: on the 64 × 32 sheet with layout `{8, 8, 0, 0}` the two
divisions executed divide by 8, the resolved `columns` is 8, and `get_tile(10)` evaluates
`10 % 8` and `10 / 8`, both defined. -/
theorem no_division_by_zero_witness :
    (fill_layout_traced sheet64x32.width sheet64x32.height ⟨8, 8, 0, 0⟩).2 = [8, 8] ∧
    (0 : Int) < 8 ∧
    (⟨sheet64x32, ⟨8, 8, 8, 4⟩⟩ : Tilesheet Int).layout_.columns ≠ 0 ∧
    (⟨sheet64x32, ⟨8, 8, 8, 4⟩⟩ : Tilesheet Int).get_tile_n_checked 10
      = some ((⟨sheet64x32, ⟨8, 8, 8, 4⟩⟩ : Tilesheet Int).get_tile_n 10) :=
  have h := no_division_by_zero sheet64x32 ⟨8, 8, 0, 0⟩
  have hs := h.2.2 ⟨sheet64x32, ⟨8, 8, 8, 4⟩⟩ rfl
  ⟨by decide, h.2.1 8 (by decide), hs.1,
    ((hs.2.1 10 (by decide)).1 (by decide)).2.2⟩

end tcod
